import Mathlib

/-!
Verification development for the media-catalog backend in `app.py`.

The Python functions are shallowly embedded over a value type `PyVal`
mirroring the JSON-ish values the program manipulates.  Python strings are
modelled as `List Char`; dictionaries as insertion-ordered association
lists with unique keys; Python floats as rationals.  Statements that can
raise in Python (item access on non-containers, attribute access, membership
tests on numbers) are embedded in `Except PyErr`; all the `try/except`
wrappers of the source become total functions returning the caught default.

Modelling notes (corners outside the claims): Python `float`/`int` accept
underscore digit separators and the nonfinite literals `inf`/`nan`; the JSON
reader likewise accepts `NaN`/`Infinity`.  Those are not modelled (the model
rejects them).  `datetime.date` objects are not modelled: dates reach the
model as ISO strings.  `repr` of containers is modelled only approximately
(it is used by the program solely to render season keys from scalar season
numbers).
-/

set_option maxRecDepth 4000

abbrev Str := List Char

def S (s : String) : Str := s.data

def isSpaceA (c : Char) : Bool :=
  c = ' ' || c = '\t' || c = '\n' || c = '\r' || c = '\x0b' || c = '\x0c'

/-- Python `str.strip()` (ASCII whitespace). -/
def pyStrip (s : Str) : Str :=
  ((s.dropWhile isSpaceA).reverse.dropWhile isSpaceA).reverse

/-- Python `str.split(sep)` for a one-character separator: keeps empty pieces. -/
def splitChar (c : Char) : Str → List Str
  | [] => [[]]
  | x :: xs =>
    match splitChar c xs with
    | [] => [[]]
    | r :: rs => if x = c then [] :: r :: rs else (x :: r) :: rs

/-- Python `pat in s` for strings: substring test. -/
def strContains (pat : Str) : Str → Bool
  | [] => pat.isEmpty
  | c :: rest => pat.isPrefixOf (c :: rest) || strContains pat rest

/-- Values of the dynamically typed fragment of Python the program uses.
Floats are modelled as rationals, dictionaries as insertion-ordered
string-keyed association lists. -/
inductive PyVal where
  | none
  | bool (b : Bool)
  | int (n : Int)
  | float (q : Rat)
  | str (s : Str)
  | list (xs : List PyVal)
  | dict (kvs : List (Str × PyVal))
deriving Inhabited

/-- Exceptions that escape the program's `try` blocks (the handlers catch
only database/JSON/Value errors, none of which arise from the modelled
statements, so every `PyErr` propagates). -/
inductive PyErr where
  | typeError
  | keyError
  | attributeError
deriving Inhabited

def dictGet : List (Str × PyVal) → Str → Option PyVal
  | [], _ => Option.none
  | (k1, v) :: rest, k => if k1 = k then some v else dictGet rest k

def dictGetD (m : List (Str × PyVal)) (k : Str) (d : PyVal) : PyVal :=
  (dictGet m k).getD d

/-- Python `d[k] = v`: replace in place if present, else append. -/
def dictSet : List (Str × PyVal) → Str → PyVal → List (Str × PyVal)
  | [], k, v => [(k, v)]
  | (k1, v1) :: rest, k, v =>
    if k1 = k then (k1, v) :: rest else (k1, v1) :: dictSet rest k v

/-- Python truthiness. -/
def pyTruthy : PyVal → Bool
  | .none => false
  | .bool b => b
  | .int n => n != 0
  | .float q => q != 0
  | .str s => !s.isEmpty
  | .list xs => !xs.isEmpty
  | .dict kvs => !kvs.isEmpty

/-- Numeric view used by Python `==` (bool and int promote to rationals). -/
def pyNum : PyVal → Option Rat
  | .bool b => some (if b then 1 else 0)
  | .int n => some n
  | .float q => some q
  | _ => Option.none

/-- Python `==`, fuel-indexed; the fuel is always adequate at
`sizeOf` of the left argument since every recursive call descends into a
strict subterm of it. -/
def pyEqF : Nat → PyVal → PyVal → Bool
  | 0, _, _ => false
  | fuel + 1, a, b =>
    match pyNum a, pyNum b with
    | some x, some y => x == y
    | _, _ =>
      match a, b with
      | .none, .none => true
      | .str s, .str t => s == t
      | .list xs, .list ys =>
          xs.length == ys.length && (xs.zip ys).all fun p => pyEqF fuel p.1 p.2
      | .dict xs, .dict ys =>
          xs.length == ys.length && xs.all fun kv =>
            match dictGet ys kv.1 with
            | some w => pyEqF fuel kv.2 w
            | Option.none => false
      | _, _ => false

mutual
/-- Executable fuel measure: strictly larger than the nesting depth. -/
def pyFuel : PyVal → Nat
  | .list xs => pyFuelList xs + 1
  | .dict kvs => pyFuelEntries kvs + 1
  | _ => 1

def pyFuelList : List PyVal → Nat
  | [] => 0
  | x :: xs => pyFuel x + pyFuelList xs

def pyFuelEntries : List (Str × PyVal) → Nat
  | [] => 0
  | (_, v) :: rest => pyFuel v + pyFuelEntries rest
end

def pyEqTop (a b : PyVal) : Bool := pyEqF (pyFuel a) a b

/-- Python `or` on values. -/
def pyOr (a b : PyVal) : PyVal := if pyTruthy a then a else b

/-- Python `key in container` for a string key. -/
def pyContains (container : PyVal) (key : Str) : Except PyErr Bool :=
  match container with
  | .dict kvs => .ok (dictGet kvs key).isSome
  | .list xs => .ok (xs.any fun x => pyEqTop x (.str key))
  | .str s => .ok (strContains key s)
  | _ => .error .typeError

/-- Python `container[key]` for a string key. -/
def pyGetItem (container : PyVal) (key : Str) : Except PyErr PyVal :=
  match container with
  | .dict kvs =>
    match dictGet kvs key with
    | some v => .ok v
    | Option.none => .error .keyError
  | _ => .error .typeError

/-- Python `container[key] = v` for a string key. -/
def pySetItem (container : PyVal) (key : Str) (v : PyVal) : Except PyErr PyVal :=
  match container with
  | .dict kvs => .ok (.dict (dictSet kvs key v))
  | _ => .error .typeError

/-- Python `obj.get(key, default)`: attribute error on non-dicts. -/
def pyGetD (v : PyVal) (k : Str) (dflt : PyVal) : Except PyErr PyVal :=
  match v with
  | .dict kvs => .ok (dictGetD kvs k dflt)
  | _ => .error .attributeError

/-- Python iteration (`for x in v`): lists yield elements, strings their
characters, dicts their keys; numbers are not iterable. -/
def pyIter : PyVal → Except PyErr (List PyVal)
  | .list xs => .ok xs
  | .str s => .ok (s.map fun c => .str [c])
  | .dict kvs => .ok (kvs.map fun kv => .str kv.1)
  | _ => .error .typeError

mutual
/-- Approximation of Python `repr`, adequate for the scalar values the
program ever formats. -/
def pyRepr : PyVal → Str
  | .none => S "None"
  | .bool true => S "True"
  | .bool false => S "False"
  | .int n => (toString n).data
  | .float q => (toString q.num).data ++ S "/" ++ (toString q.den).data
  | .str s => '\'' :: s ++ ['\'']
  | .list xs => '[' :: pyReprList xs ++ [']']
  | .dict kvs => '\x7b' :: pyReprEntries kvs ++ ['\x7d']

def pyReprList : List PyVal → Str
  | [] => []
  | [x] => pyRepr x
  | x :: xs => pyRepr x ++ S ", " ++ pyReprList xs

def pyReprEntries : List (Str × PyVal) → Str
  | [] => []
  | [(k, v)] => '\'' :: k ++ S "': " ++ pyRepr v
  | (k, v) :: rest => '\'' :: k ++ S "': " ++ pyRepr v ++ S ", " ++ pyReprEntries rest
end

/-- Python `str(v)` as used by the `season_<n>` f-strings. -/
def pyStrOf : PyVal → Str
  | .str s => s
  | v => pyRepr v

def digitsVal (ds : Str) : Nat := ds.foldl (fun a c => a * 10 + (c.toNat - 48)) 0

/-- The decimal part of Python `float(str)` after stripping: optional sign,
`digits[.digits]` or `.digits`, optional exponent; whole input consumed. -/
def pyFloatOfStr (s : Str) : Option Rat :=
  let signed : Bool × Str :=
    match s with
    | '+' :: r => (false, r)
    | '-' :: r => (true, r)
    | _ => (false, s)
  let neg := signed.1
  let s1 := signed.2
  let ip := s1.takeWhile Char.isDigit
  let s2 := s1.dropWhile Char.isDigit
  let fracPart : Str × Str :=
    match s2 with
    | '.' :: r => (r.takeWhile Char.isDigit, r.dropWhile Char.isDigit)
    | _ => ([], s2)
  let fp := fracPart.1
  let s3 := fracPart.2
  if ip.isEmpty && fp.isEmpty then Option.none
  else
    let mant : Rat := (digitsVal ip : Rat) + (digitsVal fp : Rat) / ((10 : Rat) ^ fp.length)
    let base := if neg then -mant else mant
    match s3 with
    | [] => some base
    | e :: r =>
      if e = 'e' || e = 'E' then
        let esigned : Bool × Str :=
          match r with
          | '+' :: rr => (false, rr)
          | '-' :: rr => (true, rr)
          | _ => (false, r)
        let ed := esigned.2.takeWhile Char.isDigit
        let r2 := esigned.2.dropWhile Char.isDigit
        if ed.isEmpty || !r2.isEmpty then Option.none
        else some (if esigned.1 then base / ((10 : Rat) ^ digitsVal ed)
                   else base * ((10 : Rat) ^ digitsVal ed))
      else Option.none

/-- Python `float(v)` wrapped in `try/except`: `none` models every raise. -/
def pyFloatTry : PyVal → Option Rat
  | .bool b => some (if b then 1 else 0)
  | .int n => some (n : Rat)
  | .float q => some q
  | .str s => pyFloatOfStr (pyStrip s)
  | _ => Option.none

/-- Decimal part of Python `int(str)`: optional sign, digits only. -/
def pyIntOfStr (s : Str) : Option Int :=
  let signed : Bool × Str :=
    match s with
    | '+' :: r => (false, r)
    | '-' :: r => (true, r)
    | _ => (false, s)
  let ds := signed.2
  if ds.isEmpty || !ds.all Char.isDigit then Option.none
  else some (if signed.1 then -(digitsVal ds : Int) else (digitsVal ds : Int))

/-- Python `int(v)` wrapped in `try/except`. -/
def pyIntTry : PyVal → Option Int
  | .bool b => some (if b then 1 else 0)
  | .int n => some n
  | .float q => some (q.num.tdiv (q.den : Int))
  | .str s => pyIntOfStr (pyStrip s)
  | _ => Option.none

def jsonWs (c : Char) : Bool := c = ' ' || c = '\t' || c = '\n' || c = '\r'

def skipWs (s : Str) : Str := s.dropWhile jsonWs

def hexVal (c : Char) : Option Nat :=
  if c.isDigit then some (c.toNat - 48)
  else if 'a' ≤ c && c ≤ 'f' then some (c.toNat - 87)
  else if 'A' ≤ c && c ≤ 'F' then some (c.toNat - 55)
  else Option.none

/-- JSON string body parser (after the opening quote): returns the decoded
characters and the remaining input past the closing quote. -/
def parseJStr (s : Str) : Option (Str × Str) :=
  match s with
  | [] => Option.none
  | c :: rest =>
    if c = '"' then some ([], rest)
    else if c = '\\' then
      match rest with
      | [] => Option.none
      | e :: r2 =>
        if e = 'u' then
          match r2 with
          | h1 :: h2 :: h3 :: h4 :: r3 => do
            let v1 ← hexVal h1
            let v2 ← hexVal h2
            let v3 ← hexVal h3
            let v4 ← hexVal h4
            let code := ((v1 * 16 + v2) * 16 + v3) * 16 + v4
            let (cs, r4) ← parseJStr r3
            some (Char.ofNat code :: cs, r4)
          | _ => Option.none
        else do
          let d ←
            if e = '"' then some '"'
            else if e = '\\' then some '\\'
            else if e = '/' then some '/'
            else if e = 'b' then some '\x08'
            else if e = 'f' then some '\x0c'
            else if e = 'n' then some '\n'
            else if e = 'r' then some '\r'
            else if e = 't' then some '\t'
            else Option.none
          let (cs, r3) ← parseJStr r2
          some (d :: cs, r3)
    else if c.toNat < 32 then Option.none
    else do
      let (cs, r2) ← parseJStr rest
      some (c :: cs, r2)
termination_by s.length
decreasing_by all_goals simp_all [List.length] <;> omega

/-- JSON number parser (strict grammar; int when no fraction or exponent). -/
def parseJNum (s : Str) : Option (PyVal × Str) :=
  let signed : Bool × Str :=
    match s with
    | '-' :: r => (true, r)
    | _ => (false, s)
  let neg := signed.1
  let s1 := signed.2
  let ip := s1.takeWhile Char.isDigit
  let s2 := s1.dropWhile Char.isDigit
  if ip.isEmpty then Option.none
  else if 1 < ip.length && ip.headI = '0' then Option.none
  else
    let fracPart : Option (Str × Str) :=
      match s2 with
      | '.' :: r =>
        let fp := r.takeWhile Char.isDigit
        if fp.isEmpty then Option.none else some (fp, r.dropWhile Char.isDigit)
      | _ => some ([], s2)
    match fracPart with
    | Option.none => Option.none
    | some (fp, s3) =>
      let expPart : Option (Option (Bool × Nat) × Str) :=
        match s3 with
        | e :: r =>
          if e = 'e' || e = 'E' then
            let esigned : Bool × Str :=
              match r with
              | '+' :: rr => (false, rr)
              | '-' :: rr => (true, rr)
              | _ => (false, r)
            let ed := esigned.2.takeWhile Char.isDigit
            if ed.isEmpty then Option.none
            else some (some (esigned.1, digitsVal ed), esigned.2.dropWhile Char.isDigit)
          else some (Option.none, s3)
        | [] => some (Option.none, [])
      match expPart with
      | Option.none => Option.none
      | some (ex, s4) =>
        let intVal : Int := if neg then -(digitsVal ip : Int) else (digitsVal ip : Int)
        match fp, ex with
        | [], Option.none => some (.int intVal, s4)
        | _, _ =>
          let mant : Rat := (digitsVal ip : Rat) + (digitsVal fp : Rat) / ((10 : Rat) ^ fp.length)
          let mant := if neg then -mant else mant
          let q :=
            match ex with
            | Option.none => mant
            | some (true, n) => mant / ((10 : Rat) ^ n)
            | some (false, n) => mant * ((10 : Rat) ^ n)
          some (.float q, s4)

mutual
/-- Fuel-indexed JSON value parser; `jsonLoads` supplies adequate fuel. -/
def parseJVal : Nat → Str → Option (PyVal × Str)
  | 0, _ => Option.none
  | fuel + 1, s =>
    match skipWs s with
    | [] => Option.none
    | c :: rest =>
      if c = 'n' then
        if (S "ull").isPrefixOf rest then some (.none, rest.drop 3) else Option.none
      else if c = 't' then
        if (S "rue").isPrefixOf rest then some (.bool true, rest.drop 3) else Option.none
      else if c = 'f' then
        if (S "alse").isPrefixOf rest then some (.bool false, rest.drop 4) else Option.none
      else if c = '"' then
        match parseJStr rest with
        | some (cs, r) => some (.str cs, r)
        | Option.none => Option.none
      else if c = '[' then
        match skipWs rest with
        | ']' :: r => some (.list [], r)
        | s1 => parseJArrItems fuel s1 []
      else if c = '\x7b' then
        match skipWs rest with
        | '\x7d' :: r => some (.dict [], r)
        | s1 => parseJObjItems fuel s1 []
      else parseJNum (c :: rest)

def parseJArrItems : Nat → Str → List PyVal → Option (PyVal × Str)
  | 0, _, _ => Option.none
  | fuel + 1, s, acc =>
    match parseJVal fuel s with
    | Option.none => Option.none
    | some (v, r) =>
      match skipWs r with
      | ',' :: r2 => parseJArrItems fuel r2 (acc ++ [v])
      | ']' :: r2 => some (.list (acc ++ [v]), r2)
      | _ => Option.none

def parseJObjItems : Nat → Str → List (Str × PyVal) → Option (PyVal × Str)
  | 0, _, _ => Option.none
  | fuel + 1, s, acc =>
    match skipWs s with
    | '"' :: r =>
      match parseJStr r with
      | Option.none => Option.none
      | some (k, r1) =>
        match skipWs r1 with
        | ':' :: r2 =>
          match parseJVal fuel r2 with
          | Option.none => Option.none
          | some (v, r3) =>
            match skipWs r3 with
            | ',' :: r4 => parseJObjItems fuel r4 (dictSet acc k v)
            | '\x7d' :: r4 => some (.dict (dictSet acc k v), r4)
            | _ => Option.none
        | _ => Option.none
    | _ => Option.none
end

/-- Python `json.loads` on a string (returns `none` where Python raises). -/
def jsonLoads (s : Str) : Option PyVal :=
  match parseJVal (2 * s.length + 2) s with
  | some (v, r) => if (skipWs r).isEmpty then some v else Option.none
  | Option.none => Option.none

/-- `safe_json_loads(data, default)` from `app.py`. -/
def safe_json_loads (v : PyVal) (dflt : PyVal) : PyVal :=
  match v with
  | .none => dflt
  | .dict kvs => .dict kvs
  | .list xs => .list xs
  | .str s => if s.isEmpty then dflt else (jsonLoads s).getD dflt
  | _ => dflt

/-- `clean_value(value)` from `app.py`. -/
def clean_value : PyVal → PyVal
  | .str s => let t := pyStrip s; if t.isEmpty then .none else .str t
  | v => v

/-- `format_date_for_input(date_value)` from `app.py` (date objects reach
the model as ISO strings). -/
def format_date_for_input (v : PyVal) : PyVal :=
  if !pyTruthy v then .none
  else
    match v with
    | .str s => if 10 ≤ s.length then .str (s.take 10) else .str s
    | _ => .none

def ytWordChar (c : Char) : Bool := c.isAlphanum || c = '_' || c = '-'

/-- One position of `re.search` for `(?:<literal>)([\w-]{11})`: the literal
must start here, immediately followed by eleven word characters. -/
def ytMatchAt (pat : Str) (s : Str) : Option Str :=
  if pat.isPrefixOf s then
    let rest := s.drop pat.length
    let cand := rest.take 11
    if cand.length == 11 && cand.all ytWordChar then some cand else Option.none
  else Option.none

/-- Leftmost match of the pattern anywhere in the string. -/
def ytSearch (pat : Str) : Str → Option Str
  | [] => ytMatchAt pat []
  | c :: cs =>
    match ytMatchAt pat (c :: cs) with
    | some r => some r
    | Option.none => ytSearch pat cs

/-- `extract_youtube_id(url)` from `app.py`, for string inputs (a truthy
non-string input makes `re.search` raise; callers model that separately). -/
def extract_youtube_id (url : Str) : Option Str :=
  if url.isEmpty then Option.none
  else
    match ytSearch (S "youtube.com/watch?v=") url with
    | some i => some i
    | Option.none =>
      match ytSearch (S "youtu.be/") url with
      | some i => some i
      | Option.none =>
        match ytSearch (S "youtube.com/embed/") url with
        | some i => some i
        | Option.none =>
          match ytSearch (S "youtube.com/v/") url with
          | some i => some i
          | Option.none =>
            if url.length == 11 && url.all (fun c => c.isAlphanum || c = '-' || c = '_')
            then some url else Option.none

/-- `parse_subtitle_input(subtitle_data)` from `app.py`. -/
def parse_subtitle_input (v : PyVal) : PyVal :=
  if !pyTruthy v then .list []
  else
    match v with
    | .str s =>
      if ['['].isPrefixOf s && [']'].isSuffixOf s then
        safe_json_loads (.str s) (.list [])
      else
        .list (((splitChar ',' s).map pyStrip).filter (fun t => !t.isEmpty) |>.map .str)
    | .list xs => .list xs
    | _ => .list []

/-- The `process_screenshots` closure inside `prepare_media_data`. -/
def process_screenshots (v : PyVal) : PyVal :=
  match v with
  | .str s =>
    if ['['].isPrefixOf s && [']'].isSuffixOf s then
      safe_json_loads (.str s) (.list [])
    else
      .list (((splitChar ',' s).map pyStrip).filter (fun t => !t.isEmpty) |>.map .str)
  | .list xs => .list xs
  | _ => .list []

/-- The allow-list `valid_source_types` from `prepare_media_data`. -/
def valid_source_types : List Str :=
  [S "original", S "camcopy", S "bluray", S "webrip", S "web-dl", S "hdtv",
   S "dvdrip", S "brrip"]

/-- The rating branch of `prepare_media_data` (lines 363-371): total, the
`try/except` around `float` absorbs every failure into absent. -/
def ratingOf (v : PyVal) : PyVal :=
  match v with
  | .none => .none
  | .str [] => .none
  | w =>
    match pyFloatTry w with
    | some q => .float q
    | Option.none => .none

/-- The total_seasons branch of `prepare_media_data` (lines 373-381). -/
def totalSeasonsOf (v : PyVal) : PyVal :=
  match v with
  | .none => .none
  | .str [] => .none
  | w =>
    match pyIntTry w with
    | some n => .int n
    | Option.none => .none

def subsDefault : PyVal := .dict [(S "english", .list []), (S "sinhala", .list [])]

/-- The per-language back-fill of lines 395-399: add an empty list under
each missing language key of an episode's subtitle dict. -/
def backfillSubs (skvs : List (Str × PyVal)) : List (Str × PyVal) :=
  let skvs1 := if (dictGet skvs (S "english")).isSome then skvs
               else dictSet skvs (S "english") (.list [])
  if (dictGet skvs1 (S "sinhala")).isSome then skvs1
  else dictSet skvs1 (S "sinhala") (.list [])

/-- Subtitle back-fill for one episode inside `prepare_media_data`
(lines 392-399).  Non-dict episodes raise: a membership test or item
assignment on them is a `TypeError` on every path. -/
def normalizeEpisode : PyVal → Except PyErr PyVal
  | .dict kvs =>
    match dictGet kvs (S "subtitles") with
    | Option.none => .ok (.dict (dictSet kvs (S "subtitles") subsDefault))
    | some (.dict skvs) =>
      .ok (.dict (dictSet kvs (S "subtitles") (.dict (backfillSubs skvs))))
    | some _ => .ok (.dict kvs)
  | _ => .error .typeError

def mapValsE (f : PyVal → Except PyErr PyVal) :
    List (Str × PyVal) → Except PyErr (List (Str × PyVal))
  | [] => .ok []
  | (k, v) :: rest => do
    let v1 ← f v
    let rest1 ← mapValsE f rest
    .ok ((k, v1) :: rest1)

def mapE (f : PyVal → Except PyErr PyVal) : List PyVal → Except PyErr (List PyVal)
  | [] => .ok []
  | v :: rest => do
    let v1 ← f v
    let rest1 ← mapE f rest
    .ok (v1 :: rest1)

/-- One season entry of the normalization loop in `prepare_media_data`
(lines 390-399): only a dict with an `episodes` list is rewritten; a string
or list containing `episodes` raises on the subsequent item access; other
non-dicts raise on the membership test. -/
def normalizeSeasonInfo : PyVal → Except PyErr PyVal
  | .dict kvs =>
    match dictGet kvs (S "episodes") with
    | some (.list eps) => do
      let eps1 ← mapE normalizeEpisode eps
      .ok (.dict (dictSet kvs (S "episodes") (.list eps1)))
    | _ => .ok (.dict kvs)
  | .str s => if strContains (S "episodes") s then .error .typeError else .ok (.str s)
  | .list xs =>
    if xs.any (fun x => pyEqTop x (.str (S "episodes"))) then .error .typeError
    else .ok (.list xs)
  | _ => .error .typeError

/-- The canonical record assembled by `prepare_media_data`. -/
structure Prepared where
  type : PyVal
  title : PyVal
  description : PyVal
  thumbnail : PyVal
  backdrop : PyVal
  release_date : PyVal
  language : PyVal
  rating : PyVal
  status : PyVal
  cast_members : PyVal
  video_links : PyVal
  download_links : PyVal
  telegram_links : PyVal
  torrent_links : PyVal
  total_seasons : PyVal
  seasons : PyVal
  genres : PyVal
  file_type : PyVal
  source_type : PyVal
  youtube_trailer : PyVal
  screenshots_720p : PyVal
  screenshots_1080p : PyVal
  screenshots_2160p : PyVal
  screenshots_trailer : PyVal
  subtitles : PyVal
deriving Inhabited

/-- The per-quality link synthesis shared by the four link maps of
`prepare_media_data`: keep each cleaned value that is truthy. -/
def linkMap (entries : List (Str × PyVal)) : PyVal :=
  .dict (entries.filter fun kv => pyTruthy kv.2)

/-- The YouTube-trailer step of `prepare_media_data` (lines 255-260):
cleans the value, canonicalizes to an embed URL when an id is extractable,
otherwise keeps the cleaned value; a truthy non-string raises inside
`re.search`. -/
def prepareTrailer (v : PyVal) : Except PyErr PyVal :=
  let yt0 := clean_value v
  if pyTruthy yt0 then
    match yt0 with
    | .str s =>
      match extract_youtube_id s with
      | some i => .ok (.str (S "https://www.youtube.com/embed/" ++ i))
      | Option.none => .ok yt0
    | _ => .error .typeError
  else .ok yt0

/-- The seasons step of `prepare_media_data` (lines 387-399): decode, and
when the result is a truthy dict back-fill episode subtitles in place. -/
def prepareSeasons (v : PyVal) : Except PyErr PyVal :=
  let seasons0 := safe_json_loads v (.dict [])
  if pyTruthy seasons0 then
    match seasons0 with
    | .dict m => do
      let m1 ← mapValsE normalizeSeasonInfo m
      .ok (.dict m1)
    | w => .ok w
  else .ok seasons0

/-- The pure field computations of `prepare_media_data`, assembled around
the two fallible steps. -/
def assembleRecord (data : List (Str × PyVal)) (youtube_trailer seasons : PyVal) :
    Prepared :=
  let genres0 := dictGetD data (S "genres") (.list [])
  let genres : PyVal :=
    match genres0 with
    | .str s =>
      if s.isEmpty then .list []
      else .list (((splitChar ',' s).map pyStrip).map .str)
    | .none => .list []
    | v => v
  let st0 := dictGetD data (S "source_type") (.str (S "original"))
  let source_type :=
    if valid_source_types.any (fun w => pyEqTop st0 (.str w)) then st0
    else .str (S "original")
  let vl0 := dictGetD data (S "video_links") .none
  let video_links :=
    if pyTruthy vl0 then safe_json_loads vl0 (.dict [])
    else
      linkMap
        [(S "video_720p", pyOr (clean_value (dictGetD data (S "video_720p") .none))
                               (clean_value (dictGetD data (S "tv_video_720p") .none))),
         (S "video_1080p", pyOr (clean_value (dictGetD data (S "video_1080p") .none))
                                (clean_value (dictGetD data (S "tv_video_1080p") .none))),
         (S "video_2160p", pyOr (clean_value (dictGetD data (S "video_2160p") .none))
                                (clean_value (dictGetD data (S "tv_video_2160p") .none)))]
  let dl0 := dictGetD data (S "download_links") .none
  let download_links :=
    if pyTruthy dl0 then safe_json_loads dl0 (.dict [])
    else
      let ft := dictGetD data (S "file_type") (.str (S "webrip"))
      let mk := fun (v : PyVal) => PyVal.dict [(S "url", v), (S "file_type", ft)]
      let d720 := clean_value (dictGetD data (S "download_720p") .none)
      let d1080 := clean_value (dictGetD data (S "download_1080p") .none)
      let d2160 := clean_value (dictGetD data (S "download_2160p") .none)
      .dict (((if pyTruthy d720 then [(S "download_720p", mk d720)] else []) ++
              (if pyTruthy d1080 then [(S "download_1080p", mk d1080)] else []) ++
              (if pyTruthy d2160 then [(S "download_2160p", mk d2160)] else [])))
  let tl0 := dictGetD data (S "telegram_links") .none
  let telegram_links :=
    if pyTruthy tl0 then safe_json_loads tl0 (.dict [])
    else
      linkMap
        [(S "telegram_720p", clean_value (dictGetD data (S "telegram_720p") .none)),
         (S "telegram_1080p", clean_value (dictGetD data (S "telegram_1080p") .none)),
         (S "telegram_2160p", clean_value (dictGetD data (S "telegram_2160p") .none))]
  let tor0 := dictGetD data (S "torrent_links") .none
  let torrent_links :=
    if pyTruthy tor0 then safe_json_loads tor0 (.dict [])
    else
      linkMap
        [(S "torrent_720p", clean_value (dictGetD data (S "torrent_720p") .none)),
         (S "torrent_1080p", clean_value (dictGetD data (S "torrent_1080p") .none)),
         (S "torrent_2160p", clean_value (dictGetD data (S "torrent_2160p") .none))]
  let s0 := dictGetD data (S "subtitles") .none
  let subtitles :=
    if pyTruthy s0 then
      match safe_json_loads s0 (.dict []) with
      | .dict skvs =>
        PyVal.dict
          [(S "english", parse_subtitle_input (dictGetD skvs (S "english") (.list []))),
           (S "sinhala", parse_subtitle_input (dictGetD skvs (S "sinhala") (.list [])))]
      | _ => subsDefault
    else
      PyVal.dict
        [(S "english", parse_subtitle_input (dictGetD data (S "english_subtitles") (.str []))),
         (S "sinhala", parse_subtitle_input (dictGetD data (S "sinhala_subtitles") (.str [])))]
  { type := dictGetD data (S "type") .none
    title := clean_value (dictGetD data (S "title") (.str []))
    description := clean_value (dictGetD data (S "description") .none)
    thumbnail := clean_value (dictGetD data (S "thumbnail") .none)
    backdrop := clean_value (dictGetD data (S "backdrop") .none)
    release_date := clean_value (dictGetD data (S "release_date") .none)
    language := clean_value (dictGetD data (S "language") .none)
    rating := ratingOf (dictGetD data (S "rating") .none)
    status := clean_value (dictGetD data (S "status") .none)
    cast_members := safe_json_loads (dictGetD data (S "cast_members") .none) (.list [])
    video_links := video_links
    download_links := download_links
    telegram_links := telegram_links
    torrent_links := torrent_links
    total_seasons := totalSeasonsOf (dictGetD data (S "total_seasons") .none)
    seasons := seasons
    genres := genres
    file_type := dictGetD data (S "file_type") (.str (S "webrip"))
    source_type := source_type
    youtube_trailer := youtube_trailer
    screenshots_720p := process_screenshots (dictGetD data (S "screenshots_720p") (.str []))
    screenshots_1080p := process_screenshots (dictGetD data (S "screenshots_1080p") (.str []))
    screenshots_2160p := process_screenshots (dictGetD data (S "screenshots_2160p") (.str []))
    screenshots_trailer := process_screenshots (dictGetD data (S "screenshots_trailer") (.str []))
    subtitles := subtitles }

/-- `prepare_media_data(data)` from `app.py`.  `data` is the request
dictionary (every caller has already forced it to be a dict via `.get`).
The result is `Except` because the YouTube step raises on a truthy
non-string trailer and the seasons loop raises on malformed season shapes;
every other step is total. -/
def prepare_media_data (data : List (Str × PyVal)) : Except PyErr Prepared := do
  let youtube_trailer ← prepareTrailer (dictGetD data (S "youtube_trailer") .none)
  let seasons ← prepareSeasons (dictGetD data (S "seasons") .none)
  .ok (assembleRecord data youtube_trailer seasons)

/-- Subtitle back-fill for one episode in `parse_media_row` (lines 453-455):
only a wholly missing `subtitles` entry is back-filled; a present entry of
any shape is left untouched.  A string or list episode already containing
`subtitles` is skipped; one without it raises on the item assignment. -/
def rowNormalizeEpisode : PyVal → Except PyErr PyVal
  | .dict kvs =>
    match dictGet kvs (S "subtitles") with
    | Option.none => .ok (.dict (dictSet kvs (S "subtitles") subsDefault))
    | some _ => .ok (.dict kvs)
  | .str s =>
    if strContains (S "subtitles") s then .ok (.str s) else .error .typeError
  | .list xs =>
    if xs.any (fun x => pyEqTop x (.str (S "subtitles"))) then .ok (.list xs)
    else .error .typeError
  | _ => .error .typeError

/-- One season entry of the loop in `parse_media_row` (lines 450-456). -/
def rowNormalizeSeasonInfo : PyVal → Except PyErr PyVal
  | .dict kvs =>
    match dictGet kvs (S "episodes") with
    | some (.list eps) => do
      let eps1 ← mapE rowNormalizeEpisode eps
      .ok (.dict (dictSet kvs (S "episodes") (.list eps1)))
    | _ => .ok (.dict kvs)
  | .str s => if strContains (S "episodes") s then .error .typeError else .ok (.str s)
  | .list xs =>
    if xs.any (fun x => pyEqTop x (.str (S "episodes"))) then .error .typeError
    else .ok (.list xs)
  | _ => .error .typeError

/-- The column-decoding steps of `parse_media_row` (lines 436-448). -/
def rowDecode (row : List (Str × PyVal)) : List (Str × PyVal) :=
  let md := row
  let md := dictSet md (S "release_date")
    (format_date_for_input (dictGetD md (S "release_date") .none))
  let md := dictSet md (S "cast_members")
    (safe_json_loads (dictGetD md (S "cast_members") .none) (.list []))
  let md := dictSet md (S "video_links")
    (safe_json_loads (dictGetD md (S "video_links") .none) (.dict []))
  let md := dictSet md (S "download_links")
    (safe_json_loads (dictGetD md (S "download_links") .none) (.dict []))
  let md := dictSet md (S "telegram_links")
    (safe_json_loads (dictGetD md (S "telegram_links") .none) (.dict []))
  let md := dictSet md (S "torrent_links")
    (safe_json_loads (dictGetD md (S "torrent_links") .none) (.dict []))
  let md := dictSet md (S "seasons")
    (safe_json_loads (dictGetD md (S "seasons") .none) .none)
  let md := dictSet md (S "genres")
    (safe_json_loads (dictGetD md (S "genres") .none) (.list []))
  let md := dictSet md (S "screenshots_720p")
    (safe_json_loads (dictGetD md (S "screenshots_720p") .none) (.list []))
  let md := dictSet md (S "screenshots_1080p")
    (safe_json_loads (dictGetD md (S "screenshots_1080p") .none) (.list []))
  let md := dictSet md (S "screenshots_2160p")
    (safe_json_loads (dictGetD md (S "screenshots_2160p") .none) (.list []))
  let md := dictSet md (S "screenshots_trailer")
    (safe_json_loads (dictGetD md (S "screenshots_trailer") .none) (.list []))
  dictSet md (S "subtitles")
    (safe_json_loads (dictGetD md (S "subtitles") .none) subsDefault)

/-- `parse_media_row(row)` from `app.py`.  The row is the fetched column
dictionary; JSON columns may hold serialized text or already-decoded
structures, both of which `safe_json_loads` accepts. -/
def parse_media_row (row : List (Str × PyVal)) : Except PyErr (List (Str × PyVal)) :=
  let md := rowDecode row
  let seasonsV := dictGetD md (S "seasons") .none
  if pyTruthy seasonsV then
    match seasonsV with
    | .dict m =>
      match mapValsE rowNormalizeSeasonInfo m with
      | .ok m1 => .ok (dictSet md (S "seasons") (.dict m1))
      | .error e => .error e
    | _ => .ok md
  else .ok md

/-- Navigation helper for stating facts about nested results. -/
inductive PathStep where
  | key (k : Str)
  | idx (n : Nat)

def pathGet : PyVal → List PathStep → Option PyVal
  | v, [] => some v
  | .dict kvs, .key k :: rest =>
    match dictGet kvs k with
    | some w => pathGet w rest
    | Option.none => Option.none
  | .list xs, .idx n :: rest =>
    match xs.get? n with
    | some w => pathGet w rest
    | Option.none => Option.none
  | _, _ => Option.none

/-- Outcome of the create handler `add_media` (database failures aside):
400 on a falsy body or falsy title, otherwise the prepared record is
inserted. -/
inductive AddResult where
  | badRequest
  | created (p : Prepared)

/-- `add_media` from `app.py`, as a function of the request body. -/
def add_media (data : PyVal) : Except PyErr AddResult := do
  if !pyTruthy data then pure AddResult.badRequest
  else
    match data with
    | .dict kvs =>
      if !pyTruthy (dictGetD kvs (S "title") .none) then pure AddResult.badRequest
      else do
        let p ← prepare_media_data kvs
        pure (AddResult.created p)
    | _ => Except.error PyErr.attributeError

/-- Outcome of the full-update handler `update_media`. -/
inductive UpdResult where
  | badRequest
  | notFound
  | updated (p : Prepared)

/-- `update_media` from `app.py`: `rowExists` abstracts the row count of
the UPDATE statement for the given id. -/
def update_media (rowExists : Bool) (data : PyVal) : Except PyErr UpdResult := do
  if !pyTruthy data then pure UpdResult.badRequest
  else
    match data with
    | .dict kvs =>
      if !pyTruthy (dictGetD kvs (S "title") .none) then pure UpdResult.badRequest
      else do
        let p ← prepare_media_data kvs
        if rowExists then pure (UpdResult.updated p) else pure UpdResult.notFound
    | _ => Except.error PyErr.attributeError

/-- Episode subtitles and episode payload assembled by `add_episode`
(lines 736-758): returns the raw `season_number` and the episode dict. -/
def episodeFromRequest (data : PyVal) : Except PyErr (PyVal × PyVal) := do
  let esubs : PyVal :=
    .dict [(S "english", parse_subtitle_input (← pyGetD data (S "english_subtitles") (.str []))),
           (S "sinhala", parse_subtitle_input (← pyGetD data (S "sinhala_subtitles") (.str [])))]
  let sn ← pyGetD data (S "season_number") .none
  let vl ← pyGetD data (S "video_links") (.dict [])
  let dl ← pyGetD data (S "download_links") (.dict [])
  let tl ← pyGetD data (S "telegram_links") (.dict [])
  let tor ← pyGetD data (S "torrent_links") (.dict [])
  let ed : PyVal :=
    .dict [(S "episode_number", ← pyGetD data (S "episode_number") .none),
           (S "episode_name", ← pyGetD data (S "episode_name") .none),
           (S "video_720p", ← pyGetD vl (S "video_720p") .none),
           (S "video_1080p", ← pyGetD vl (S "video_1080p") .none),
           (S "video_2160p", ← pyGetD vl (S "video_2160p") .none),
           (S "download_720p", ← pyGetD dl (S "download_720p") .none),
           (S "download_1080p", ← pyGetD dl (S "download_1080p") .none),
           (S "download_2160p", ← pyGetD dl (S "download_2160p") .none),
           (S "telegram_720p", ← pyGetD tl (S "telegram_720p") .none),
           (S "telegram_1080p", ← pyGetD tl (S "telegram_1080p") .none),
           (S "telegram_2160p", ← pyGetD tl (S "telegram_2160p") .none),
           (S "torrent_720p", ← pyGetD tor (S "torrent_720p") .none),
           (S "torrent_1080p", ← pyGetD tor (S "torrent_1080p") .none),
           (S "torrent_2160p", ← pyGetD tor (S "torrent_2160p") .none),
           (S "subtitles", esubs)]
  pure (sn, ed)

/-- Outcome of the append-episode handler `add_episode`: on success the
whole seasons map written back to the row is carried. -/
inductive EpisodeResult where
  | badRequest
  | notFound
  | success (newSeasons : PyVal)

/-- `add_episode` from `app.py`: `media` is the fetched
`(seasons, file_type)` pair of the row with the given id and type `tv`,
or `none` when no such row exists. -/
def add_episode (media : Option (PyVal × PyVal)) (data : PyVal) :
    Except PyErr EpisodeResult := do
  if !pyTruthy data then pure EpisodeResult.badRequest
  else
    match media with
    | Option.none => pure EpisodeResult.notFound
    | some (sv, ftv) => do
      let cs := safe_json_loads sv (.dict [])
      let _file_type := pyOr ftv (.str (S "webrip"))
      let (sn, ed) ← episodeFromRequest data
      let key := S "season_" ++ pyStrOf sn
      let hasKey ← pyContains cs key
      let cs1 ←
        if hasKey then pure cs
        else
          pySetItem cs key
            (.dict [(S "season_number", sn), (S "total_episodes", .int 0),
                    (S "episodes", .list [])])
      let bucket ← pyGetItem cs1 key
      let eps ← pyGetItem bucket (S "episodes")
      let epsL ←
        match eps with
        | .list l => pure l
        | _ => Except.error PyErr.attributeError
      let eps1 := epsL ++ [ed]
      let bucket1 ← pySetItem bucket (S "episodes") (.list eps1)
      let bucket2 ← pySetItem bucket1 (S "total_episodes") (.int eps1.length)
      let cs2 ← pySetItem cs1 key bucket2
      pure (EpisodeResult.success cs2)

/-- What the subtitle-update handlers write back, if anything. -/
inductive SubsWrite where
  | subtitles (v : PyVal)
  | seasons (v : PyVal)
  | nothing

/-- Outcome of the subtitle-update handlers. -/
inductive SubsResult where
  | badRequest
  | notFound
  | success (write : SubsWrite)

/-- The episode scan of `update_media_subtitles` (lines 847-853): walk the
iterable of episodes, on the first whose `episode_number` equals the target
replace its subtitles with `newSubs` and stop; report whether a match was
found.  Each visited element must support `.get` (be a dict). -/
def replaceFirstEpisode (target : PyVal) (newSubs : Except PyErr PyVal) :
    List PyVal → Except PyErr (List PyVal × Bool)
  | [] => .ok ([], false)
  | e :: es =>
    match e with
    | .dict kvs =>
      if pyEqTop (dictGetD kvs (S "episode_number") .none) target then do
        let ns ← newSubs
        .ok ((PyVal.dict (dictSet kvs (S "subtitles") ns)) :: es, true)
      else do
        let r ← replaceFirstEpisode target newSubs es
        .ok (e :: r.1, r.2)
    | _ => .error .attributeError

/-- The fresh subtitle map both subtitle handlers build from the request
body: `parse_subtitle_input` of the `english` and `sinhala` fields. -/
def subsFromRequest (data : PyVal) : Except PyErr PyVal := do
  pure (PyVal.dict
    [(S "english", parse_subtitle_input (← pyGetD data (S "english") (.list []))),
     (S "sinhala", parse_subtitle_input (← pyGetD data (S "sinhala") (.list [])))])

/-- `update_media_subtitles` from `app.py`: `media` is the fetched
`(type, subtitles, seasons)` triple for the id, or `none`. -/
def update_media_subtitles (media : Option (PyVal × PyVal × PyVal)) (data : PyVal) :
    Except PyErr SubsResult := do
  if !pyTruthy data then pure SubsResult.badRequest
  else
    match media with
    | Option.none => pure SubsResult.notFound
    | some (mtype, subsV, seasonsV) => do
      let _current_subtitles := safe_json_loads subsV subsDefault
      let cs := safe_json_loads seasonsV (.dict [])
      if pyEqTop mtype (.str (S "movie")) then do
        let ns ← subsFromRequest data
        pure (SubsResult.success (SubsWrite.subtitles ns))
      else if pyEqTop mtype (.str (S "tv")) then do
        let sn ← pyGetD data (S "season_number") .none
        let en ← pyGetD data (S "episode_number") .none
        match sn, en with
        | .none, _ => do
          let ns ← subsFromRequest data
          pure (SubsResult.success (SubsWrite.subtitles ns))
        | _, .none => do
          let ns ← subsFromRequest data
          pure (SubsResult.success (SubsWrite.subtitles ns))
        | _, _ => do
          let key := S "season_" ++ pyStrOf sn
          let hasKey ← pyContains cs key
          let cs1 ←
            if hasKey then do
              let bucket ← pyGetItem cs key
              let hasEps ← pyContains bucket (S "episodes")
              if hasEps then do
                let eps ← pyGetItem bucket (S "episodes")
                let epsL ← pyIter eps
                let scanned ← replaceFirstEpisode en (subsFromRequest data) epsL
                match eps with
                | .list _ => do
                  let bucket1 ← pySetItem bucket (S "episodes") (.list scanned.1)
                  pySetItem cs key bucket1
                | _ => pure cs
              else pure cs
            else pure cs
          pure (SubsResult.success (SubsWrite.seasons cs1))
      else pure (SubsResult.success SubsWrite.nothing)

/-- `update_episode_subtitles` from `app.py`: `media` is the fetched
seasons column for the id with type `tv` (or `none`); `seasonNumber` is the
already-converted query parameter. -/
def update_episode_subtitles (media : Option PyVal) (seasonNumber : Option Int)
    (episodeNumber : Int) (data : PyVal) : Except PyErr SubsResult := do
  if !pyTruthy data || seasonNumber.isNone then pure SubsResult.badRequest
  else
    match media with
    | Option.none => pure SubsResult.notFound
    | some seasonsV => do
      let cs := safe_json_loads seasonsV (.dict [])
      let n := seasonNumber.getD 0
      let key := S "season_" ++ (toString n).data
      let hasKey ← pyContains cs key
      if !hasKey then pure SubsResult.notFound
      else do
        let bucket ← pyGetItem cs key
        let hasEps ← pyContains bucket (S "episodes")
        if !hasEps then pure SubsResult.notFound
        else do
          let eps ← pyGetItem bucket (S "episodes")
          let epsL ← pyIter eps
          let scanned ← replaceFirstEpisode (.int episodeNumber) (subsFromRequest data) epsL
          if !scanned.2 then pure SubsResult.notFound
          else
            match eps with
            | .list _ => do
              let bucket1 ← pySetItem bucket (S "episodes") (.list scanned.1)
              let cs1 ← pySetItem cs key bucket1
              pure (SubsResult.success (SubsWrite.seasons cs1))
            | _ => pure (SubsResult.success (SubsWrite.seasons cs))

/-- Request body of the C2 scenario: episode 1 of season 1. -/
def episodeReqC2 : PyVal :=
  .dict [(S "season_number", .int 1), (S "episode_number", .int 1)]

/-- Episode payload the scenario produces (all links absent, default empty
subtitles). -/
def episodePayloadC2 : PyVal :=
  .dict [(S "episode_number", .int 1),
         (S "episode_name", .none),
         (S "video_720p", .none),
         (S "video_1080p", .none),
         (S "video_2160p", .none),
         (S "download_720p", .none),
         (S "download_1080p", .none),
         (S "download_2160p", .none),
         (S "telegram_720p", .none),
         (S "telegram_1080p", .none),
         (S "telegram_2160p", .none),
         (S "torrent_720p", .none),
         (S "torrent_1080p", .none),
         (S "torrent_2160p", .none),
         (S "subtitles", .dict [(S "english", .list []), (S "sinhala", .list [])])]

/-- Stored seasons column used by the C4 witness. -/
def seasonsC4 : PyVal :=
  .dict [(S "season_1", .dict [(S "episodes",
    .list [.dict [(S "episode_number", .int 1)]])])]

/-- Subtitle request body used by the C4 witness. -/
def subsReqC4 : PyVal := .dict [(S "english", .str (S "u"))]

/-- The guarantee one normalized episode gives inside `prepare_media_data`:
it is a dict with a `subtitles` entry, and when that entry is a dict it has
both language keys. -/
def episodeComplete (e : PyVal) : Prop :=
  ∃ ekvs, e = .dict ekvs ∧ (dictGet ekvs (S "subtitles")).isSome ∧
    (∀ skvs, dictGet ekvs (S "subtitles") = some (.dict skvs) →
      (dictGet skvs (S "english")).isSome ∧ (dictGet skvs (S "sinhala")).isSome)

/-- Row used by the C1 counterexample: an episode stored with a partial
subtitles map (english only). -/
def rowC1 : List (Str × PyVal) :=
  [(S "seasons", .dict [(S "season_1", .dict [(S "episodes",
     .list [.dict [(S "subtitles", .dict [(S "english", .list [])])]])])])]

/-! Concrete input shapes for the list-like fields (C7). -/


/-- Characters that may appear in a "plain" URL: printable, no whitespace,
no comma, quote, backslash or brackets. -/
def plainChar (c : Char) : Bool :=
  32 ≤ c.toNat && !(isSpaceA c) && !(c = ',') && !(c = '"') && !(c = '\\') &&
  !(c = '[') && !(c = ']')

def goodUrl (u : Str) : Bool := !u.isEmpty && u.all plainChar

def goodUrls (us : List Str) : Bool := us.all goodUrl

/-- Join with a single separator character (shape of a comma-separated field). -/
def joinSep (c : Char) : List Str → Str
  | [] => []
  | [u] => u
  | u :: us => u ++ c :: joinSep c us

/-- A JSON string literal holding `u`. -/
def quoteJ (u : Str) : Str := '"' :: (u ++ ['"'])

/-- A JSON array literal holding the strings `us`. -/
def jsonArr (us : List Str) : Str :=
  '[' :: (joinSep ',' (us.map quoteJ) ++ [']'])

theorem ok_bind {ε α β : Type} (a : α) (f : α → Except ε β) :
    (Except.ok a : Except ε α) >>= f = f a := rfl

theorem error_bind {ε α β : Type} (e : ε) (f : α → Except ε β) :
    (Except.error e : Except ε α) >>= f = .error e := rfl

theorem pure_eq_ok {ε α : Type} (a : α) : (pure a : Except ε α) = .ok a := rfl

theorem dictGet_dictSet (m : List (Str × PyVal)) (k k1 : Str) (v : PyVal) :
    dictGet (dictSet m k v) k1 = if k1 = k then some v else dictGet m k1 := by
  induction m with
  | nil =>
    simp only [dictSet, dictGet]
    rcases eq_or_ne k1 k with h | h
    · subst h; simp
    · rw [if_neg (Ne.symm h), if_neg h]
  | cons hd tl ih =>
    obtain ⟨k2, v2⟩ := hd
    simp only [dictSet]
    by_cases h2 : k2 = k
    · subst h2
      simp only [if_pos rfl, dictGet]
      rcases eq_or_ne k2 k1 with h | h
      · subst h; simp
      · rw [if_neg h, if_neg (Ne.symm h), if_neg h]
    · rw [if_neg h2]
      simp only [dictGet, ih]
      rcases eq_or_ne k2 k1 with h | h
      · subst h
        rw [if_pos rfl, if_neg (fun hh : k2 = k => h2 hh), if_pos rfl]
      · rw [if_neg h]
        rcases eq_or_ne k1 k with h3 | h3
        · rw [if_pos h3, if_pos h3]
        · rw [if_neg h3, if_neg h3, if_neg h]

theorem mapE_mem {f : PyVal → Except PyErr PyVal} {l l1 : List PyVal}
    (h : mapE f l = .ok l1) : ∀ y ∈ l1, ∃ x ∈ l, f x = .ok y := by
  induction l generalizing l1 with
  | nil =>
    simp only [mapE, Except.ok.injEq] at h
    subst h; simp
  | cons a as ih =>
    simp only [mapE] at h
    cases ha : f a with
    | error e => rw [ha, error_bind] at h; exact Except.noConfusion h
    | ok b =>
      rw [ha, ok_bind] at h
      cases has : mapE f as with
      | error e => rw [has, error_bind] at h; exact Except.noConfusion h
      | ok bs =>
        rw [has, ok_bind] at h
        replace h := Except.ok.inj h
        intro y hy
        rw [← h] at hy
        rcases List.mem_cons.mp hy with h1 | h1
        · exact ⟨a, List.mem_cons_self a as, h1 ▸ ha⟩
        · obtain ⟨x, hx, hfx⟩ := ih has y h1
          exact ⟨x, List.mem_cons_of_mem a hx, hfx⟩

theorem mapValsE_mem {f : PyVal → Except PyErr PyVal}
    {m m1 : List (Str × PyVal)} (h : mapValsE f m = .ok m1) :
    ∀ kv ∈ m1, ∃ v, (kv.1, v) ∈ m ∧ f v = .ok kv.2 := by
  induction m generalizing m1 with
  | nil =>
    simp only [mapValsE, Except.ok.injEq] at h
    subst h; simp
  | cons a as ih =>
    obtain ⟨k, v⟩ := a
    simp only [mapValsE] at h
    cases ha : f v with
    | error e => rw [ha, error_bind] at h; exact Except.noConfusion h
    | ok b =>
      rw [ha, ok_bind] at h
      cases has : mapValsE f as with
      | error e => rw [has, error_bind] at h; exact Except.noConfusion h
      | ok bs =>
        rw [has, ok_bind] at h
        replace h := Except.ok.inj h
        intro kv hkv
        rw [← h] at hkv
        rcases List.mem_cons.mp hkv with h1 | h1
        · subst h1; exact ⟨v, List.mem_cons_self _ _, ha⟩
        · obtain ⟨w, hw, hfw⟩ := ih has kv h1
          exact ⟨w, List.mem_cons_of_mem _ hw, hfw⟩

theorem prepare_media_data_ok_iff (data : List (Str × PyVal)) (p : Prepared) :
    prepare_media_data data = .ok p ↔
      ∃ yt ss,
        prepareTrailer (dictGetD data (S "youtube_trailer") .none) = .ok yt ∧
        prepareSeasons (dictGetD data (S "seasons") .none) = .ok ss ∧
        p = assembleRecord data yt ss := by
  unfold prepare_media_data
  cases h1 : prepareTrailer (dictGetD data (S "youtube_trailer") .none) with
  | error e => simp [error_bind]
  | ok yt =>
    cases h2 : prepareSeasons (dictGetD data (S "seasons") .none) with
    | error e => simp [ok_bind, error_bind, h2]
    | ok ss =>
      simp [ok_bind, h2]
      exact eq_comm

theorem assembleRecord_fields (data : List (Str × PyVal)) (yt ss : PyVal) :
    (assembleRecord data yt ss).title = clean_value (dictGetD data (S "title") (.str [])) ∧
    (assembleRecord data yt ss).rating = ratingOf (dictGetD data (S "rating") .none) ∧
    (assembleRecord data yt ss).total_seasons
      = totalSeasonsOf (dictGetD data (S "total_seasons") .none) ∧
    (assembleRecord data yt ss).file_type
      = dictGetD data (S "file_type") (.str (S "webrip")) ∧
    (assembleRecord data yt ss).youtube_trailer = yt ∧
    (assembleRecord data yt ss).seasons = ss := by
  refine ⟨rfl, rfl, rfl, rfl, rfl, rfl⟩

theorem pyEqTop_str {a : PyVal} {w : Str} (h : pyEqTop a (.str w) = true) :
    a = .str w := by
  cases a <;> simp [pyEqTop, pyFuel, pyEqF, pyNum] at h ⊢
  exact h

/-- C3 counterexample: `prepare_media_data` performs no allow-list check on
`file_type`; a supplied value outside every fixed list in the program is
stored verbatim instead of being replaced by the default `webrip`. -/
theorem claim_C3_counterexample :
    (match prepare_media_data
        [(S "title", .str (S "T")), (S "file_type", .str (S "definitely-invalid"))] with
     | .ok p => some p.file_type
     | .error _ => Option.none) = some (.str (S "definitely-invalid")) ∧
    valid_source_types.contains (S "definitely-invalid") = false := by
  exact ⟨rfl, rfl⟩

/-- C3 (amended): `source_type` is validated against the fixed allow-list
with `original` substituted on mismatch, so the produced `source_type` is
always a member of the list; `file_type`, however, is taken from the request
unvalidated, with `webrip` used only when the key is absent. -/
theorem claim_C3 :
    ∀ (data : List (Str × PyVal)) (p : Prepared), prepare_media_data data = .ok p →
      p.source_type ∈ valid_source_types.map PyVal.str ∧
      (valid_source_types.any
          (fun w => pyEqTop (dictGetD data (S "source_type") (.str (S "original"))) (.str w))
         = false → p.source_type = .str (S "original")) ∧
      p.file_type = dictGetD data (S "file_type") (.str (S "webrip")) := by
  intro data p hp
  obtain ⟨yt, ss, _, _, rfl⟩ := (prepare_media_data_ok_iff data p).mp hp
  refine ⟨?_, ?_, rfl⟩
  · show (if valid_source_types.any _ then _ else _) ∈ _
    split
    · rename_i hany
      obtain ⟨w, hw, hEq⟩ := List.any_eq_true.mp hany
      rw [pyEqTop_str hEq]
      exact List.mem_map_of_mem PyVal.str hw
    · exact List.mem_map_of_mem PyVal.str (by simp [valid_source_types])
  · intro hnone
    show (if valid_source_types.any _ then _ else _) = _
    rw [if_neg (by rw [hnone]; exact Bool.false_ne_true)]

theorem claim_C3_witness :
    (assembleRecord [(S "title", PyVal.str (S "T")),
        (S "source_type", PyVal.str (S "bogus"))] PyVal.none (.dict [])).source_type
      = .str (S "original") := by
  have h := claim_C3 [(S "title", PyVal.str (S "T")), (S "source_type", PyVal.str (S "bogus"))]
    (assembleRecord [(S "title", PyVal.str (S "T")),
        (S "source_type", PyVal.str (S "bogus"))] PyVal.none (.dict [])) rfl
  exact h.2.1 rfl

/-- C5 counterexample: when no YouTube id is extractable from a truthy
cleaned trailer value, `prepare_media_data` keeps the cleaned original value
instead of producing an empty trailer. -/
theorem claim_C5_counterexample :
    (match prepare_media_data
        [(S "title", .str (S "T")), (S "youtube_trailer", .str (S "hello world"))] with
     | .ok p => some p.youtube_trailer
     | .error _ => Option.none) = some (.str (S "hello world")) ∧
    extract_youtube_id (S "hello world") = Option.none ∧
    pyTruthy (PyVal.str (S "hello world")) = true := by
  exact ⟨rfl, rfl, rfl⟩

/-- C5 (amended): after cleaning, an extractable id is rewritten to the
canonical embed URL; when the cleaned value is absent it stays absent; when
the cleaned value is a string with no extractable id it is kept unchanged
(not emptied). -/
theorem claim_C5 :
    ∀ (data : List (Str × PyVal)) (p : Prepared), prepare_media_data data = .ok p →
      (∀ s i, clean_value (dictGetD data (S "youtube_trailer") .none) = .str s →
         extract_youtube_id s = some i →
         p.youtube_trailer = .str (S "https://www.youtube.com/embed/" ++ i)) ∧
      (∀ s, clean_value (dictGetD data (S "youtube_trailer") .none) = .str s →
         extract_youtube_id s = Option.none →
         p.youtube_trailer = .str s) ∧
      (clean_value (dictGetD data (S "youtube_trailer") .none) = .none →
         p.youtube_trailer = .none) := by
  intro data p hp
  obtain ⟨yt, ss, hyt, _, rfl⟩ := (prepare_media_data_ok_iff data p).mp hp
  rw [prepareTrailer] at hyt
  refine ⟨?_, ?_, ?_⟩
  · intro s i hc hx
    rw [hc] at hyt
    by_cases hs : pyTruthy (PyVal.str s) = true
    · rw [if_pos hs] at hyt
      have hyt2 : (match extract_youtube_id s with
          | some j => Except.ok (PyVal.str (S "https://www.youtube.com/embed/" ++ j))
          | Option.none => Except.ok (PyVal.str s)) = Except.ok yt := hyt
      rw [hx] at hyt2
      exact (Except.ok.inj hyt2).symm
    · have hsempty : s = [] := by
        cases s with
        | nil => rfl
        | cons c cs => simp [pyTruthy] at hs
      subst hsempty
      simp [extract_youtube_id] at hx
  · intro s hc hx
    rw [hc] at hyt
    by_cases hs : pyTruthy (PyVal.str s) = true
    · rw [if_pos hs] at hyt
      have hyt2 : (match extract_youtube_id s with
          | some j => Except.ok (PyVal.str (S "https://www.youtube.com/embed/" ++ j))
          | Option.none => Except.ok (PyVal.str s)) = Except.ok yt := hyt
      rw [hx] at hyt2
      exact (Except.ok.inj hyt2).symm
    · rw [if_neg (by simpa using hs)] at hyt
      exact (Except.ok.inj hyt).symm
  · intro hc
    rw [hc] at hyt
    rw [if_neg (by simp [pyTruthy])] at hyt
    exact (Except.ok.inj hyt).symm

theorem claim_C5_witness :
    (assembleRecord [(S "youtube_trailer",
        PyVal.str (S " https://youtu.be/dQw4w9WgXcQ "))]
      (.str (S "https://www.youtube.com/embed/dQw4w9WgXcQ")) (.dict [])).youtube_trailer
      = .str (S "https://www.youtube.com/embed/dQw4w9WgXcQ") := by
  have h := claim_C5 [(S "youtube_trailer", PyVal.str (S " https://youtu.be/dQw4w9WgXcQ "))]
    (assembleRecord [(S "youtube_trailer", PyVal.str (S " https://youtu.be/dQw4w9WgXcQ "))]
      (.str (S "https://www.youtube.com/embed/dQw4w9WgXcQ")) (.dict [])) rfl
  exact h.1 (S "https://youtu.be/dQw4w9WgXcQ") (S "dQw4w9WgXcQ") rfl rfl

/-- C8: rating and total_seasons parsing is total (the `try/except` around
`float`/`int` is modelled by the total functions `ratingOf` and
`totalSeasonsOf`): absent, empty-string and unparseable values all produce
absent, parseable values produce the parsed number, and updating an
existing record with rating `""` stores an absent rating. -/
theorem claim_C8 :
    (∀ (data : List (Str × PyVal)) (p : Prepared), prepare_media_data data = .ok p →
        p.rating = ratingOf (dictGetD data (S "rating") .none) ∧
        p.total_seasons = totalSeasonsOf (dictGetD data (S "total_seasons") .none)) ∧
    ratingOf .none = .none ∧
    ratingOf (.str []) = .none ∧
    ratingOf (.str (S "abc")) = .none ∧
    ratingOf (.str (S "7.5")) = .float ((15 : Rat) / 2) ∧
    (∀ q : Rat, ratingOf (.float q) = .float q) ∧
    totalSeasonsOf .none = .none ∧
    totalSeasonsOf (.str []) = .none ∧
    totalSeasonsOf (.str (S "abc")) = .none ∧
    totalSeasonsOf (.str (S "3")) = .int 3 ∧
    (match update_media true (.dict [(S "title", .str (S "X")), (S "rating", .str [])]) with
     | .ok (.updated p) => some p.rating
     | _ => Option.none) = some PyVal.none := by
  refine ⟨?_, rfl, rfl, rfl, ?_, fun q => rfl, rfl, rfl, rfl, rfl, rfl⟩
  · intro data p hp
    obtain ⟨yt, ss, _, _, rfl⟩ := (prepare_media_data_ok_iff data p).mp hp
    exact ⟨rfl, rfl⟩
  · have h : ratingOf (.str (S "7.5"))
        = .float ((((7 : Nat) : Rat)) + (((5 : Nat) : Rat)) / ((10 : Rat) ^ (1 : Nat))) := rfl
    rw [h]
    exact congrArg PyVal.float (by norm_num)

theorem claim_C8_witness :
    (assembleRecord [(S "title", PyVal.str (S "X")),
        (S "rating", PyVal.str (S "7.5"))] PyVal.none (.dict [])).rating
      = .float ((15 : Rat) / 2) := by
  have h := (claim_C8.1 [(S "title", PyVal.str (S "X")), (S "rating", PyVal.str (S "7.5"))]
    (assembleRecord [(S "title", PyVal.str (S "X")),
        (S "rating", PyVal.str (S "7.5"))] PyVal.none (.dict [])) rfl).1
  rw [h]
  exact claim_C8.2.2.2.2.1

/-- C10 counterexample: the title check is a falsiness test before cleaning,
so a whitespace-only title (truthy in Python) passes validation, the record
is created, and its stored title is absent after cleaning — the claim's
"empty after trimming implies 400" and "every persisted title is non-empty"
both fail. -/
theorem claim_C10_counterexample :
    (match add_media (.dict [(S "title", .str (S "   ")), (S "type", .str (S "movie"))]) with
     | .ok (.created p) => some p.title
     | _ => Option.none) = some PyVal.none ∧
    (match add_media (.dict [(S "title", .str (S "   ")), (S "type", .str (S "movie"))]) with
     | .ok .badRequest => true
     | _ => false) = false ∧
    pyStrip (S "   ") = [] := by
  exact ⟨rfl, rfl, rfl⟩

/-- C10 (amended): the create and full-update handlers reject with 400
exactly those dict bodies that are falsy or whose `title` value is falsy
(missing, `None`, or the empty string); a truthy title — including a
whitespace-only one — passes, and the persisted title is the cleaned value,
which is absent when the title was whitespace-only. -/
theorem claim_C10 :
    (∀ kvs : List (Str × PyVal), add_media (.dict kvs) = .ok .badRequest ↔
       (pyTruthy (.dict kvs) = false ∨ pyTruthy (dictGetD kvs (S "title") .none) = false)) ∧
    (∀ (e : Bool) (kvs : List (Str × PyVal)), update_media e (.dict kvs) = .ok .badRequest ↔
       (pyTruthy (.dict kvs) = false ∨ pyTruthy (dictGetD kvs (S "title") .none) = false)) ∧
    (∀ (kvs : List (Str × PyVal)) (p : Prepared), add_media (.dict kvs) = .ok (.created p) →
       p.title = clean_value (dictGetD kvs (S "title") (.str []))) ∧
    (∀ (e : Bool) (kvs : List (Str × PyVal)) (p : Prepared),
       update_media e (.dict kvs) = .ok (.updated p) →
       p.title = clean_value (dictGetD kvs (S "title") (.str []))) := by
  refine ⟨?_, ?_, ?_, ?_⟩
  · intro kvs
    cases hd : pyTruthy (.dict kvs) with
    | false => simp [add_media, hd, pure_eq_ok]
    | true =>
      cases ht : pyTruthy (dictGetD kvs (S "title") .none) with
      | false => simp [add_media, hd, ht, pure_eq_ok]
      | true =>
        cases hp : prepare_media_data kvs with
        | error e => simp [add_media, hd, ht, hp, error_bind]
        | ok q => simp [add_media, hd, ht, hp, ok_bind, pure_eq_ok]
  · intro e kvs
    cases hd : pyTruthy (.dict kvs) with
    | false => simp [update_media, hd, pure_eq_ok]
    | true =>
      cases ht : pyTruthy (dictGetD kvs (S "title") .none) with
      | false => simp [update_media, hd, ht, pure_eq_ok]
      | true =>
        cases hp : prepare_media_data kvs with
        | error er => simp [update_media, hd, ht, hp, error_bind]
        | ok q => cases e <;> simp [update_media, hd, ht, hp, ok_bind, pure_eq_ok]
  · intro kvs p h
    cases hd : pyTruthy (.dict kvs) with
    | false => simp [add_media, hd, pure_eq_ok] at h
    | true =>
      cases ht : pyTruthy (dictGetD kvs (S "title") .none) with
      | false => simp [add_media, hd, ht, pure_eq_ok] at h
      | true =>
        cases hp : prepare_media_data kvs with
        | error e => simp [add_media, hd, ht, hp, error_bind] at h
        | ok q =>
          simp [add_media, hd, ht, hp, ok_bind] at h
          obtain ⟨yt, ss, _, _, rfl⟩ := (prepare_media_data_ok_iff kvs q).mp hp
          rw [← h]
          rfl
  · intro e kvs p h
    cases hd : pyTruthy (.dict kvs) with
    | false => simp [update_media, hd, pure_eq_ok] at h
    | true =>
      cases ht : pyTruthy (dictGetD kvs (S "title") .none) with
      | false => simp [update_media, hd, ht, pure_eq_ok] at h
      | true =>
        cases hp : prepare_media_data kvs with
        | error er => simp [update_media, hd, ht, hp, error_bind] at h
        | ok q =>
          cases e with
          | false => simp [update_media, hd, ht, hp, ok_bind] at h
          | true =>
            simp [update_media, hd, ht, hp, ok_bind] at h
            obtain ⟨yt, ss, _, _, rfl⟩ := (prepare_media_data_ok_iff kvs q).mp hp
            rw [← h]
            rfl

theorem claim_C10_witness :
    (add_media (.dict [(S "type", .str (S "movie"))]) = .ok .badRequest) ∧
    (update_media true (.dict [(S "title", .str [])]) = .ok .badRequest) := by
  exact ⟨(claim_C10.1 [(S "type", .str (S "movie"))]).mpr (Or.inr rfl),
         (claim_C10.2.1 true [(S "title", .str [])]).mpr (Or.inr rfl)⟩

theorem dictSet_dictSet (m : List (Str × PyVal)) (k : Str) (v w : PyVal) :
    dictSet (dictSet m k v) k w = dictSet m k w := by
  induction m with
  | nil => simp [dictSet]
  | cons hd tl ih =>
    obtain ⟨k1, v1⟩ := hd
    by_cases h : k1 = k <;> simp [dictSet, h, ih]

/-- C2: adding an episode to a tv record whose decoded seasons map lacks the
`season_<n>` bucket creates the bucket, appends the episode as its only
element and sets `total_episodes` to 1 (the new episode count); a missing
row of type tv yields not-found. -/
theorem claim_C2 :
    (∀ (data sv ftv : PyVal) (m : List (Str × PyVal)) (sn ed : PyVal),
       pyTruthy data = true →
       episodeFromRequest data = .ok (sn, ed) →
       safe_json_loads sv (.dict []) = .dict m →
       dictGet m (S "season_" ++ pyStrOf sn) = Option.none →
       add_episode (some (sv, ftv)) data =
         .ok (.success (.dict (dictSet m (S "season_" ++ pyStrOf sn)
           (.dict [(S "season_number", sn), (S "total_episodes", .int 1),
                   (S "episodes", .list [ed])]))))) ∧
    (∀ data : PyVal, pyTruthy data = true →
       add_episode Option.none data = .ok .notFound) := by
  constructor
  · intro data sv ftv m sn ed hT hE hS hK
    unfold add_episode
    simp only [hT, Bool.not_true, Bool.false_eq_true, if_false, hS, hE, ok_bind]
    simp only [pyContains, hK, Option.isSome_none, ok_bind, Bool.false_eq_true, if_false,
      pySetItem, pyGetItem, dictGet_dictSet, if_pos rfl]
    have h1 : (S "season_number" : Str) ≠ S "episodes" := by decide
    have h2 : (S "total_episodes" : Str) ≠ S "episodes" := by decide
    have h3 : (S "season_number" : Str) ≠ S "total_episodes" := by decide
    simp [dictGet, dictSet, pure_eq_ok, ok_bind, dictSet_dictSet, h1, h2, h3]
  · intro data hT
    unfold add_episode
    rw [hT]
    simp [pure_eq_ok]



theorem claim_C2_witness :
    add_episode (some (PyVal.none, PyVal.none)) episodeReqC2 =
      .ok (.success (.dict [(S "season_1",
        .dict [(S "season_number", .int 1), (S "total_episodes", .int 1),
               (S "episodes", .list [episodePayloadC2])])])) ∧
    add_episode Option.none episodeReqC2 = .ok .notFound := by
  exact ⟨claim_C2.1 episodeReqC2 PyVal.none PyVal.none [] (.int 1) episodePayloadC2
           rfl rfl rfl rfl,
         claim_C2.2 episodeReqC2 rfl⟩

/-- C4 counterexample: the generic subtitle endpoint at episode scope
(`update_media_subtitles` with season/episode numbers in the body) does not
return not-found when the named season bucket is absent: it writes the
seasons map back unchanged and reports success. -/
theorem claim_C4_counterexample :
    update_media_subtitles (some (.str (S "tv"), PyVal.none, .dict []))
      (.dict [(S "season_number", .int 1), (S "episode_number", .int 1),
              (S "english", .str (S "u"))]) =
      .ok (.success (.seasons (.dict []))) ∧
    (match update_media_subtitles (some (.str (S "tv"), PyVal.none, .dict []))
        (.dict [(S "season_number", .int 1), (S "episode_number", .int 1),
                (S "english", .str (S "u"))]) with
     | .ok .notFound => true
     | _ => false) = false := by
  exact ⟨rfl, rfl⟩

/-- C4 (amended): the dedicated per-episode endpoint
(`update_episode_subtitles`) behaves as the claim says: not-found when the
id is absent, the season bucket is absent, the bucket has no `episodes`
entry, or no episode matches, and on success exactly the first matching
episode's subtitles are replaced; the generic endpoint
(`update_media_subtitles`) at episode scope, however, only 404s on an
absent id — an absent season or episode leaves the seasons map unchanged
and still reports success. -/
theorem claim_C4 :
    (∀ (sn en : Int) (data : PyVal), pyTruthy data = true →
       update_episode_subtitles Option.none (some sn) en data = .ok .notFound) ∧
    (∀ (media : Option PyVal) (en : Int) (data : PyVal),
       update_episode_subtitles media Option.none en data = .ok .badRequest) ∧
    (∀ (sv : PyVal) (m : List (Str × PyVal)) (sn en : Int) (data : PyVal),
       pyTruthy data = true →
       safe_json_loads sv (.dict []) = .dict m →
       dictGet m (S "season_" ++ (toString sn).data) = Option.none →
       update_episode_subtitles (some sv) (some sn) en data = .ok .notFound) ∧
    (∀ (sv : PyVal) (m b : List (Str × PyVal)) (sn en : Int) (data : PyVal),
       pyTruthy data = true →
       safe_json_loads sv (.dict []) = .dict m →
       dictGet m (S "season_" ++ (toString sn).data) = some (.dict b) →
       dictGet b (S "episodes") = Option.none →
       update_episode_subtitles (some sv) (some sn) en data = .ok .notFound) ∧
    (∀ (sv : PyVal) (m b : List (Str × PyVal)) (eps eps1 : List PyVal)
        (sn en : Int) (data : PyVal),
       pyTruthy data = true →
       safe_json_loads sv (.dict []) = .dict m →
       dictGet m (S "season_" ++ (toString sn).data) = some (.dict b) →
       dictGet b (S "episodes") = some (.list eps) →
       replaceFirstEpisode (.int en) (subsFromRequest data) eps = .ok (eps1, false) →
       update_episode_subtitles (some sv) (some sn) en data = .ok .notFound) ∧
    (∀ (sv : PyVal) (m b : List (Str × PyVal)) (eps eps1 : List PyVal)
        (sn en : Int) (data : PyVal),
       pyTruthy data = true →
       safe_json_loads sv (.dict []) = .dict m →
       dictGet m (S "season_" ++ (toString sn).data) = some (.dict b) →
       dictGet b (S "episodes") = some (.list eps) →
       replaceFirstEpisode (.int en) (subsFromRequest data) eps = .ok (eps1, true) →
       update_episode_subtitles (some sv) (some sn) en data =
         .ok (.success (.seasons (.dict (dictSet m (S "season_" ++ (toString sn).data)
           (.dict (dictSet b (S "episodes") (.list eps1)))))))) ∧
    (∀ (target ns1 : PyVal) (ns : Except PyErr PyVal) (pre post : List PyVal)
        (ke : List (Str × PyVal)),
       (∀ x ∈ pre, ∃ kx, x = .dict kx ∧
          pyEqTop (dictGetD kx (S "episode_number") .none) target = false) →
       pyEqTop (dictGetD ke (S "episode_number") .none) target = true →
       ns = .ok ns1 →
       replaceFirstEpisode target ns (pre ++ .dict ke :: post) =
         .ok (pre ++ .dict (dictSet ke (S "subtitles") ns1) :: post, true)) ∧
    (∀ (subsV sv : PyVal) (m dk : List (Str × PyVal)) (n1 n2 : Int),
       pyTruthy (.dict dk) = true →
       dictGetD dk (S "season_number") .none = .int n1 →
       dictGetD dk (S "episode_number") .none = .int n2 →
       safe_json_loads sv (.dict []) = .dict m →
       dictGet m (S "season_" ++ pyStrOf (.int n1)) = Option.none →
       update_media_subtitles (some (.str (S "tv"), subsV, sv)) (.dict dk) =
         .ok (.success (.seasons (.dict m)))) := by
  refine ⟨?_, ?_, ?_, ?_, ?_, ?_, ?_, ?_⟩
  · intro sn en data hT
    unfold update_episode_subtitles
    simp [hT, pure_eq_ok]
  · intro media en data
    unfold update_episode_subtitles
    simp [pure_eq_ok]
  · intro sv m sn en data hT hS hK
    unfold update_episode_subtitles
    simp only [hT, Bool.not_true, Option.isNone_some, Bool.or_self, Bool.false_eq_true,
      if_false, hS, Option.getD_some]
    simp [pyContains, hK, ok_bind, pure_eq_ok]
  · intro sv m b sn en data hT hS hK hE
    unfold update_episode_subtitles
    simp only [hT, Bool.not_true, Option.isNone_some, Bool.or_self, Bool.false_eq_true,
      if_false, hS, Option.getD_some]
    simp only [pyContains, hK, Option.isSome_some, Bool.not_true, Bool.false_eq_true,
      if_false, ok_bind]
    simp [pyGetItem, hK, pyContains, hE, ok_bind, pure_eq_ok]
  · intro sv m b eps eps1 sn en data hT hS hK hE hR
    unfold update_episode_subtitles
    simp only [hT, Bool.not_true, Option.isNone_some, Bool.or_self, Bool.false_eq_true,
      if_false, hS, Option.getD_some]
    simp only [pyContains, hK, Option.isSome_some, Bool.not_true, Bool.false_eq_true,
      if_false, ok_bind, pyGetItem, hE]
    simp [pyIter, hR, pure_eq_ok, ok_bind]
  · intro sv m b eps eps1 sn en data hT hS hK hE hR
    unfold update_episode_subtitles
    simp only [hT, Bool.not_true, Option.isNone_some, Bool.or_self, Bool.false_eq_true,
      if_false, hS, Option.getD_some]
    simp only [pyContains, hK, Option.isSome_some, Bool.not_true, Bool.false_eq_true,
      if_false, ok_bind, pyGetItem, hE]
    simp [pyIter, hR, pure_eq_ok, ok_bind, pySetItem]
  · intro target ns1 ns pre post ke hpre hmatch hns
    induction pre with
    | nil =>
      simp only [List.nil_append, replaceFirstEpisode, hmatch, if_pos rfl, hns, ok_bind]
      simp
    | cons x xs ih =>
      obtain ⟨kx, rfl, hkx⟩ := hpre x (List.mem_cons_self _ _)
      have ih1 := ih (fun y hy => hpre y (List.mem_cons_of_mem _ hy))
      simp only [List.cons_append, replaceFirstEpisode, hkx, Bool.false_eq_true, if_false,
        List.append_eq, ih1, ok_bind]
  · intro subsV sv m dk n1 n2 hT hsn hen hS hK
    unfold update_media_subtitles
    simp only [hT, Bool.not_true, Bool.false_eq_true, if_false]
    have hmv : pyEqTop (.str (S "tv")) (.str (S "movie")) = false := by decide
    have htv : pyEqTop (.str (S "tv")) (.str (S "tv")) = true := by decide
    simp only [hmv, Bool.false_eq_true, if_false, htv, if_true, pyGetD, ok_bind, hsn, hen]
    simp [pyContains, hS, hK, ok_bind, pure_eq_ok]



theorem claim_C4_witness :
    update_episode_subtitles (some seasonsC4) (some 1) 1 subsReqC4 =
      .ok (.success (.seasons (.dict [(S "season_1", .dict [(S "episodes",
        .list [.dict [(S "episode_number", .int 1),
                      (S "subtitles", .dict [(S "english", .list [.str (S "u")]),
                                             (S "sinhala", .list [])])]])])]))) ∧
    update_episode_subtitles (some (.dict [])) (some 1) 1 subsReqC4 = .ok .notFound := by
  constructor
  · exact claim_C4.2.2.2.2.2.1 seasonsC4
      [(S "season_1", .dict [(S "episodes", .list [.dict [(S "episode_number", .int 1)]])])]
      [(S "episodes", .list [.dict [(S "episode_number", .int 1)]])]
      [.dict [(S "episode_number", .int 1)]]
      [.dict [(S "episode_number", .int 1),
              (S "subtitles", .dict [(S "english", .list [.str (S "u")]),
                                     (S "sinhala", .list [])])]]
      1 1 subsReqC4 rfl rfl rfl rfl rfl
  · exact claim_C4.2.2.1 (.dict []) [] 1 1 subsReqC4 rfl rfl rfl

theorem dictGet_dictSet_self (m : List (Str × PyVal)) (k : Str) (v : PyVal) :
    dictGet (dictSet m k v) k = some v := by
  rw [dictGet_dictSet, if_pos rfl]

theorem dictGet_dictSet_ne (m : List (Str × PyVal)) (k k1 : Str) (v : PyVal)
    (h : k1 ≠ k) : dictGet (dictSet m k v) k1 = dictGet m k1 := by
  rw [dictGet_dictSet, if_neg h]

theorem rowDecode_gets (row : List (Str × PyVal)) :
    dictGet (rowDecode row) (S "release_date")
      = some (format_date_for_input (dictGetD row (S "release_date") .none)) ∧
    dictGet (rowDecode row) (S "cast_members")
      = some (safe_json_loads (dictGetD row (S "cast_members") .none) (.list [])) ∧
    dictGet (rowDecode row) (S "video_links")
      = some (safe_json_loads (dictGetD row (S "video_links") .none) (.dict [])) ∧
    dictGet (rowDecode row) (S "download_links")
      = some (safe_json_loads (dictGetD row (S "download_links") .none) (.dict [])) ∧
    dictGet (rowDecode row) (S "telegram_links")
      = some (safe_json_loads (dictGetD row (S "telegram_links") .none) (.dict [])) ∧
    dictGet (rowDecode row) (S "torrent_links")
      = some (safe_json_loads (dictGetD row (S "torrent_links") .none) (.dict [])) ∧
    dictGet (rowDecode row) (S "seasons")
      = some (safe_json_loads (dictGetD row (S "seasons") .none) .none) ∧
    dictGet (rowDecode row) (S "genres")
      = some (safe_json_loads (dictGetD row (S "genres") .none) (.list [])) ∧
    dictGet (rowDecode row) (S "screenshots_720p")
      = some (safe_json_loads (dictGetD row (S "screenshots_720p") .none) (.list [])) ∧
    dictGet (rowDecode row) (S "screenshots_1080p")
      = some (safe_json_loads (dictGetD row (S "screenshots_1080p") .none) (.list [])) ∧
    dictGet (rowDecode row) (S "screenshots_2160p")
      = some (safe_json_loads (dictGetD row (S "screenshots_2160p") .none) (.list [])) ∧
    dictGet (rowDecode row) (S "screenshots_trailer")
      = some (safe_json_loads (dictGetD row (S "screenshots_trailer") .none) (.list [])) ∧
    dictGet (rowDecode row) (S "subtitles")
      = some (safe_json_loads (dictGetD row (S "subtitles") .none) subsDefault) := by
  refine ⟨?_, ?_, ?_, ?_, ?_, ?_, ?_, ?_, ?_, ?_, ?_, ?_, ?_⟩ <;>
    simp +decide only [rowDecode, dictGetD, dictGet_dictSet_ne, dictGet_dictSet_self]

theorem parse_media_row_get_ne (row md : List (Str × PyVal)) (k : Str)
    (hp : parse_media_row row = .ok md) (hk : k ≠ S "seasons") :
    dictGet md k = dictGet (rowDecode row) k := by
  unfold parse_media_row at hp
  cases ht : pyTruthy (dictGetD (rowDecode row) (S "seasons") .none) with
  | false =>
    simp only [ht, Bool.false_eq_true, if_false, Except.ok.injEq] at hp
    rw [← hp]
  | true =>
    simp only [ht, if_true] at hp
    cases hv : dictGetD (rowDecode row) (S "seasons") .none with
    | dict m =>
      simp only [hv] at hp
      cases hm : mapValsE rowNormalizeSeasonInfo m with
      | error e => simp only [hm] at hp; exact Except.noConfusion hp
      | ok m1 =>
        simp only [hm, Except.ok.injEq] at hp
        rw [← hp, dictGet_dictSet_ne _ _ _ _ hk]
    | none => simp only [hv, Except.ok.injEq] at hp; rw [← hp]
    | bool b => simp only [hv, Except.ok.injEq] at hp; rw [← hp]
    | int n => simp only [hv, Except.ok.injEq] at hp; rw [← hp]
    | float q => simp only [hv, Except.ok.injEq] at hp; rw [← hp]
    | str s => simp only [hv, Except.ok.injEq] at hp; rw [← hp]
    | list xs => simp only [hv, Except.ok.injEq] at hp; rw [← hp]

/-- C9 counterexample: a row with no stored seasons column is returned by
`parse_media_row` with `seasons` absent (`None`), not as a native mapping or
list. -/
theorem claim_C9_counterexample :
    (match parse_media_row [] with
     | .ok md => dictGet md (S "seasons")
     | .error _ => Option.none) = some PyVal.none := by
  exact rfl

/-- C9 (amended): `safe_json_loads` returns its default on `None`, empty or
undecodable text, and non-string scalars, and passes dicts and lists
through; `parse_media_row` decodes every JSON-bearing column with
`safe_json_loads` under its per-column default — empty list for
cast/genres/screenshots, empty map for the four link maps, the two-language
empty subtitle map for subtitles — except `seasons`, whose default is
absent: a row without a decodable seasons column comes back with `seasons`
absent rather than as a mapping. -/
theorem claim_C9 :
    (∀ d : PyVal, safe_json_loads .none d = d) ∧
    (∀ (kvs : List (Str × PyVal)) (d : PyVal), safe_json_loads (.dict kvs) d = .dict kvs) ∧
    (∀ (xs : List PyVal) (d : PyVal), safe_json_loads (.list xs) d = .list xs) ∧
    (∀ (s : Str) (d : PyVal), jsonLoads s = Option.none → safe_json_loads (.str s) d = d) ∧
    (∀ (n : Int) (d : PyVal), safe_json_loads (.int n) d = d) ∧
    (∀ (b : Bool) (d : PyVal), safe_json_loads (.bool b) d = d) ∧
    (∀ row md, parse_media_row row = .ok md →
       dictGet md (S "cast_members")
         = some (safe_json_loads (dictGetD row (S "cast_members") .none) (.list [])) ∧
       dictGet md (S "video_links")
         = some (safe_json_loads (dictGetD row (S "video_links") .none) (.dict [])) ∧
       dictGet md (S "download_links")
         = some (safe_json_loads (dictGetD row (S "download_links") .none) (.dict [])) ∧
       dictGet md (S "telegram_links")
         = some (safe_json_loads (dictGetD row (S "telegram_links") .none) (.dict [])) ∧
       dictGet md (S "torrent_links")
         = some (safe_json_loads (dictGetD row (S "torrent_links") .none) (.dict [])) ∧
       dictGet md (S "genres")
         = some (safe_json_loads (dictGetD row (S "genres") .none) (.list [])) ∧
       dictGet md (S "screenshots_720p")
         = some (safe_json_loads (dictGetD row (S "screenshots_720p") .none) (.list [])) ∧
       dictGet md (S "screenshots_1080p")
         = some (safe_json_loads (dictGetD row (S "screenshots_1080p") .none) (.list [])) ∧
       dictGet md (S "screenshots_2160p")
         = some (safe_json_loads (dictGetD row (S "screenshots_2160p") .none) (.list [])) ∧
       dictGet md (S "screenshots_trailer")
         = some (safe_json_loads (dictGetD row (S "screenshots_trailer") .none) (.list [])) ∧
       dictGet md (S "subtitles")
         = some (safe_json_loads (dictGetD row (S "subtitles") .none) subsDefault) ∧
       (dictGetD row (S "seasons") .none = PyVal.none →
          dictGet md (S "seasons") = some PyVal.none)) := by
  refine ⟨fun d => rfl, fun kvs d => rfl, fun xs d => rfl, ?_, fun n d => rfl,
    fun b d => rfl, ?_⟩
  · intro s d hj
    cases s with
    | nil => rfl
    | cons c cs =>
      simp only [safe_json_loads, List.isEmpty_cons, Bool.false_eq_true, if_false, hj,
        Option.getD_none]
  · intro row md hp
    have hg := rowDecode_gets row
    refine ⟨?_, ?_, ?_, ?_, ?_, ?_, ?_, ?_, ?_, ?_, ?_, ?_⟩
    · rw [parse_media_row_get_ne row md _ hp (by decide)]; exact hg.2.1
    · rw [parse_media_row_get_ne row md _ hp (by decide)]; exact hg.2.2.1
    · rw [parse_media_row_get_ne row md _ hp (by decide)]; exact hg.2.2.2.1
    · rw [parse_media_row_get_ne row md _ hp (by decide)]; exact hg.2.2.2.2.1
    · rw [parse_media_row_get_ne row md _ hp (by decide)]; exact hg.2.2.2.2.2.1
    · rw [parse_media_row_get_ne row md _ hp (by decide)]; exact hg.2.2.2.2.2.2.2.1
    · rw [parse_media_row_get_ne row md _ hp (by decide)]; exact hg.2.2.2.2.2.2.2.2.1
    · rw [parse_media_row_get_ne row md _ hp (by decide)]; exact hg.2.2.2.2.2.2.2.2.2.1
    · rw [parse_media_row_get_ne row md _ hp (by decide)]; exact hg.2.2.2.2.2.2.2.2.2.2.1
    · rw [parse_media_row_get_ne row md _ hp (by decide)]
      exact hg.2.2.2.2.2.2.2.2.2.2.2.1
    · rw [parse_media_row_get_ne row md _ hp (by decide)]
      exact hg.2.2.2.2.2.2.2.2.2.2.2.2
    · intro habs
      have hseasons := hg.2.2.2.2.2.2.1
      rw [habs] at hseasons
      unfold parse_media_row at hp
      have hsv : dictGetD (rowDecode row) (S "seasons") .none = PyVal.none := by
        rw [dictGetD, hseasons]
        rfl
      simp only [hsv, pyTruthy, Bool.false_eq_true, if_false, Except.ok.injEq] at hp
      rw [← hp]
      exact hseasons

theorem claim_C9_witness :
    dictGet (rowDecode [(S "video_links", .str (S "oops"))]) (S "video_links")
      = some (.dict []) ∧
    safe_json_loads (.str (S "oops")) (.dict []) = .dict [] := by
  have h := (claim_C9.2.2.2.2.2.2 [(S "video_links", .str (S "oops"))]
    (rowDecode [(S "video_links", .str (S "oops"))]) rfl).2.1
  exact ⟨h.trans (by rfl), claim_C9.2.2.2.1 (S "oops") (.dict []) rfl⟩


theorem backfillSubs_isSome (skvs : List (Str × PyVal)) :
    (dictGet (backfillSubs skvs) (S "english")).isSome = true ∧
    (dictGet (backfillSubs skvs) (S "sinhala")).isSome = true := by
  simp only [backfillSubs]
  split_ifs with h1 h2 h2
  · exact ⟨h1, h2⟩
  · constructor
    · rw [dictGet_dictSet_ne _ _ _ _ (by decide)]; exact h1
    · rw [dictGet_dictSet_self]; rfl
  · constructor
    · rw [dictGet_dictSet_self]; rfl
    · exact h2
  · constructor
    · rw [dictGet_dictSet_ne _ _ _ _ (by decide), dictGet_dictSet_self]; rfl
    · rw [dictGet_dictSet_self]; rfl

theorem normalizeEpisode_ok {e e1 : PyVal} (h : normalizeEpisode e = .ok e1) :
    episodeComplete e1 := by
  cases e with
  | dict kvs =>
    simp only [normalizeEpisode] at h
    cases hs : dictGet kvs (S "subtitles") with
    | none =>
      simp only [hs, Except.ok.injEq] at h
      refine ⟨dictSet kvs (S "subtitles") subsDefault, h.symm, ?_, ?_⟩
      · rw [dictGet_dictSet_self]; rfl
      · intro skvs hsk
        rw [dictGet_dictSet_self] at hsk
        have h3 : PyVal.dict [(S "english", PyVal.list []), (S "sinhala", PyVal.list [])]
            = PyVal.dict skvs := Option.some.inj hsk
        rw [← PyVal.dict.inj h3]
        exact ⟨rfl, rfl⟩
    | some v =>
      cases v with
      | dict skvs0 =>
        simp only [hs, Except.ok.injEq] at h
        refine ⟨_, h.symm, ?_, ?_⟩
        · rw [dictGet_dictSet_self]; rfl
        · intro skvs hsk
          rw [dictGet_dictSet_self] at hsk
          rw [← PyVal.dict.inj (Option.some.inj hsk)]
          exact backfillSubs_isSome skvs0
      | none =>
        simp only [hs, Except.ok.injEq] at h
        refine ⟨kvs, h.symm, by rw [hs]; rfl, fun skvs hsk => ?_⟩
        rw [hs] at hsk; simp at hsk
      | bool b =>
        simp only [hs, Except.ok.injEq] at h
        refine ⟨kvs, h.symm, by rw [hs]; rfl, fun skvs hsk => ?_⟩
        rw [hs] at hsk; simp at hsk
      | int n =>
        simp only [hs, Except.ok.injEq] at h
        refine ⟨kvs, h.symm, by rw [hs]; rfl, fun skvs hsk => ?_⟩
        rw [hs] at hsk; simp at hsk
      | float q =>
        simp only [hs, Except.ok.injEq] at h
        refine ⟨kvs, h.symm, by rw [hs]; rfl, fun skvs hsk => ?_⟩
        rw [hs] at hsk; simp at hsk
      | str s1 =>
        simp only [hs, Except.ok.injEq] at h
        refine ⟨kvs, h.symm, by rw [hs]; rfl, fun skvs hsk => ?_⟩
        rw [hs] at hsk; simp at hsk
      | list xs =>
        simp only [hs, Except.ok.injEq] at h
        refine ⟨kvs, h.symm, by rw [hs]; rfl, fun skvs hsk => ?_⟩
        rw [hs] at hsk; simp at hsk
  | none => exact Except.noConfusion h
  | bool b => exact Except.noConfusion h
  | int n => exact Except.noConfusion h
  | float q => exact Except.noConfusion h
  | str s => exact Except.noConfusion h
  | list xs => exact Except.noConfusion h

theorem normalizeSeasonInfo_ok {b b1 : PyVal} (h : normalizeSeasonInfo b = .ok b1) :
    ∀ bkvs eps, b1 = .dict bkvs → dictGet bkvs (S "episodes") = some (.list eps) →
      ∀ e ∈ eps, episodeComplete e := by
  cases b with
  | dict kvs =>
    simp only [normalizeSeasonInfo] at h
    cases hE : dictGet kvs (S "episodes") with
    | none =>
      simp only [hE, Except.ok.injEq] at h
      intro bkvs eps h1 h2
      rw [← h, ] at h1
      rw [← PyVal.dict.inj h1, hE] at h2
      exact absurd h2 (by simp)
    | some v =>
      cases v with
      | list eps0 =>
        simp only [hE] at h
        cases hm : mapE normalizeEpisode eps0 with
        | error e => simp only [hm] at h; exact Except.noConfusion h
        | ok eps1 =>
          simp only [hm, ok_bind, Except.ok.injEq] at h
          intro bkvs eps h1 h2 e he
          rw [← h] at h1
          rw [← PyVal.dict.inj h1, dictGet_dictSet_self] at h2
          obtain rfl : eps1 = eps := PyVal.list.inj (Option.some.inj h2)
          obtain ⟨x, _, hx⟩ := mapE_mem hm e he
          exact normalizeEpisode_ok hx
      | none =>
        simp only [hE, Except.ok.injEq] at h
        intro bkvs eps h1 h2
        rw [← h] at h1
        rw [← PyVal.dict.inj h1, hE] at h2
        simp at h2
      | bool c =>
        simp only [hE, Except.ok.injEq] at h
        intro bkvs eps h1 h2
        rw [← h] at h1
        rw [← PyVal.dict.inj h1, hE] at h2
        simp at h2
      | int n =>
        simp only [hE, Except.ok.injEq] at h
        intro bkvs eps h1 h2
        rw [← h] at h1
        rw [← PyVal.dict.inj h1, hE] at h2
        simp at h2
      | float q =>
        simp only [hE, Except.ok.injEq] at h
        intro bkvs eps h1 h2
        rw [← h] at h1
        rw [← PyVal.dict.inj h1, hE] at h2
        simp at h2
      | str s1 =>
        simp only [hE, Except.ok.injEq] at h
        intro bkvs eps h1 h2
        rw [← h] at h1
        rw [← PyVal.dict.inj h1, hE] at h2
        simp at h2
      | dict kvs1 =>
        simp only [hE, Except.ok.injEq] at h
        intro bkvs eps h1 h2
        rw [← h] at h1
        rw [← PyVal.dict.inj h1, hE] at h2
        simp at h2
  | str s =>
    simp only [normalizeSeasonInfo] at h
    by_cases hc : strContains (S "episodes") s = true
    · rw [if_pos hc] at h; exact Except.noConfusion h
    · rw [if_neg hc] at h
      intro bkvs eps h1 h2
      rw [← Except.ok.inj h] at h1
      exact absurd h1 (by simp)
  | list xs =>
    simp only [normalizeSeasonInfo] at h
    by_cases hc : (xs.any fun x => pyEqTop x (.str (S "episodes"))) = true
    · rw [if_pos hc] at h; exact Except.noConfusion h
    · rw [if_neg hc] at h
      intro bkvs eps h1 h2
      rw [← Except.ok.inj h] at h1
      exact absurd h1 (by simp)
  | none => exact Except.noConfusion h
  | bool c => exact Except.noConfusion h
  | int n => exact Except.noConfusion h
  | float q => exact Except.noConfusion h

theorem prepareSeasons_ok {v ss : PyVal} (h : prepareSeasons v = .ok ss) :
    ∀ m, ss = .dict m → ∀ kb ∈ m, ∀ bkvs eps, kb.2 = .dict bkvs →
      dictGet bkvs (S "episodes") = some (.list eps) →
      ∀ e ∈ eps, episodeComplete e := by
  unfold prepareSeasons at h
  cases ht : pyTruthy (safe_json_loads v (.dict [])) with
  | false =>
    simp only [ht, Bool.false_eq_true, if_false, Except.ok.injEq] at h
    intro m hm kb hkb
    rw [h, hm] at ht
    simp only [pyTruthy] at ht
    have hnil : m = [] := by simpa using ht
    subst hnil
    exact absurd hkb (List.not_mem_nil kb)
  | true =>
    simp only [ht, if_true] at h
    cases hv : safe_json_loads v (.dict []) with
    | dict m0 =>
      simp only [hv] at h
      cases hm : mapValsE normalizeSeasonInfo m0 with
      | error e => simp only [hm] at h; exact Except.noConfusion h
      | ok m1 =>
        simp only [hm, ok_bind, Except.ok.injEq] at h
        intro m hss kb hkb bkvs eps h1 h2 e he
        rw [← h] at hss
        obtain rfl : m1 = m := PyVal.dict.inj hss
        obtain ⟨w, _, hw⟩ := mapValsE_mem hm kb hkb
        exact normalizeSeasonInfo_ok hw bkvs eps h1 h2 e he
    | none =>
      simp only [hv, Except.ok.injEq] at h
      intro m hss
      rw [← h] at hss
      simp at hss
    | bool c =>
      simp only [hv, Except.ok.injEq] at h
      intro m hss
      rw [← h] at hss
      simp at hss
    | int n =>
      simp only [hv, Except.ok.injEq] at h
      intro m hss
      rw [← h] at hss
      simp at hss
    | float q =>
      simp only [hv, Except.ok.injEq] at h
      intro m hss
      rw [← h] at hss
      simp at hss
    | str s1 =>
      simp only [hv, Except.ok.injEq] at h
      intro m hss
      rw [← h] at hss
      simp at hss
    | list xs =>
      simp only [hv, Except.ok.injEq] at h
      intro m hss
      rw [← h] at hss
      simp at hss

theorem rowNormalizeEpisode_ok {x e1 : PyVal} (h : rowNormalizeEpisode x = .ok e1) :
    ∀ ekvs, e1 = .dict ekvs → (dictGet ekvs (S "subtitles")).isSome = true := by
  cases x with
  | dict kvs =>
    simp only [rowNormalizeEpisode] at h
    cases hs : dictGet kvs (S "subtitles") with
    | none =>
      simp only [hs, Except.ok.injEq] at h
      intro ekvs h1
      rw [← h] at h1
      rw [← PyVal.dict.inj h1, dictGet_dictSet_self]
      rfl
    | some v =>
      simp only [hs, Except.ok.injEq] at h
      intro ekvs h1
      rw [← h] at h1
      rw [← PyVal.dict.inj h1, hs]
      rfl
  | str s =>
    simp only [rowNormalizeEpisode] at h
    by_cases hc : strContains (S "subtitles") s = true
    · rw [if_pos hc] at h
      intro ekvs h1
      rw [← Except.ok.inj h] at h1
      exact absurd h1 (by simp)
    · rw [if_neg hc] at h; exact Except.noConfusion h
  | list xs =>
    simp only [rowNormalizeEpisode] at h
    by_cases hc : (xs.any fun y => pyEqTop y (.str (S "subtitles"))) = true
    · rw [if_pos hc] at h
      intro ekvs h1
      rw [← Except.ok.inj h] at h1
      exact absurd h1 (by simp)
    · rw [if_neg hc] at h; exact Except.noConfusion h
  | none => exact Except.noConfusion h
  | bool b => exact Except.noConfusion h
  | int n => exact Except.noConfusion h
  | float q => exact Except.noConfusion h

theorem rowNormalizeSeasonInfo_ok {b b1 : PyVal} (h : rowNormalizeSeasonInfo b = .ok b1) :
    ∀ bkvs eps, b1 = .dict bkvs → dictGet bkvs (S "episodes") = some (.list eps) →
      ∀ e ∈ eps, ∀ ekvs, e = .dict ekvs →
        (dictGet ekvs (S "subtitles")).isSome = true := by
  cases b with
  | dict kvs =>
    simp only [rowNormalizeSeasonInfo] at h
    cases hE : dictGet kvs (S "episodes") with
    | none =>
      simp only [hE, Except.ok.injEq] at h
      intro bkvs eps h1 h2
      rw [← h] at h1
      rw [← PyVal.dict.inj h1, hE] at h2
      simp at h2
    | some v =>
      cases v with
      | list eps0 =>
        simp only [hE] at h
        cases hm : mapE rowNormalizeEpisode eps0 with
        | error e => simp only [hm] at h; exact Except.noConfusion h
        | ok eps1 =>
          simp only [hm, ok_bind, Except.ok.injEq] at h
          intro bkvs eps h1 h2 e he ekvs hek
          rw [← h] at h1
          rw [← PyVal.dict.inj h1, dictGet_dictSet_self] at h2
          obtain rfl : eps1 = eps := PyVal.list.inj (Option.some.inj h2)
          obtain ⟨x, _, hx⟩ := mapE_mem hm e he
          exact rowNormalizeEpisode_ok hx ekvs hek
      | none =>
        simp only [hE, Except.ok.injEq] at h
        intro bkvs eps h1 h2
        rw [← h] at h1
        rw [← PyVal.dict.inj h1, hE] at h2
        simp at h2
      | bool c =>
        simp only [hE, Except.ok.injEq] at h
        intro bkvs eps h1 h2
        rw [← h] at h1
        rw [← PyVal.dict.inj h1, hE] at h2
        simp at h2
      | int n =>
        simp only [hE, Except.ok.injEq] at h
        intro bkvs eps h1 h2
        rw [← h] at h1
        rw [← PyVal.dict.inj h1, hE] at h2
        simp at h2
      | float q =>
        simp only [hE, Except.ok.injEq] at h
        intro bkvs eps h1 h2
        rw [← h] at h1
        rw [← PyVal.dict.inj h1, hE] at h2
        simp at h2
      | str s1 =>
        simp only [hE, Except.ok.injEq] at h
        intro bkvs eps h1 h2
        rw [← h] at h1
        rw [← PyVal.dict.inj h1, hE] at h2
        simp at h2
      | dict kvs1 =>
        simp only [hE, Except.ok.injEq] at h
        intro bkvs eps h1 h2
        rw [← h] at h1
        rw [← PyVal.dict.inj h1, hE] at h2
        simp at h2
  | str s =>
    simp only [rowNormalizeSeasonInfo] at h
    by_cases hc : strContains (S "episodes") s = true
    · rw [if_pos hc] at h; exact Except.noConfusion h
    · rw [if_neg hc] at h
      intro bkvs eps h1 h2
      rw [← Except.ok.inj h] at h1
      exact absurd h1 (by simp)
  | list xs =>
    simp only [rowNormalizeSeasonInfo] at h
    by_cases hc : (xs.any fun x => pyEqTop x (.str (S "episodes"))) = true
    · rw [if_pos hc] at h; exact Except.noConfusion h
    · rw [if_neg hc] at h
      intro bkvs eps h1 h2
      rw [← Except.ok.inj h] at h1
      exact absurd h1 (by simp)
  | none => exact Except.noConfusion h
  | bool c => exact Except.noConfusion h
  | int n => exact Except.noConfusion h
  | float q => exact Except.noConfusion h

theorem parse_media_row_seasons_ok {row md m : List (Str × PyVal)}
    (hp : parse_media_row row = .ok md)
    (hm : dictGet md (S "seasons") = some (.dict m)) :
    ∀ kb ∈ m, ∀ bkvs eps, kb.2 = .dict bkvs →
      dictGet bkvs (S "episodes") = some (.list eps) →
      ∀ e ∈ eps, ∀ ekvs, e = .dict ekvs →
        (dictGet ekvs (S "subtitles")).isSome = true := by
  have hG := (rowDecode_gets row).2.2.2.2.2.2.1
  have hds : dictGetD (rowDecode row) (S "seasons") .none
      = safe_json_loads (dictGetD row (S "seasons") .none) .none := by
    rw [dictGetD, hG]
    rfl
  unfold parse_media_row at hp
  cases ht : pyTruthy (dictGetD (rowDecode row) (S "seasons") .none) with
  | false =>
    simp only [ht, Bool.false_eq_true, if_false, Except.ok.injEq] at hp
    rw [← hp] at hm
    rw [hG] at hm
    replace hm := Option.some.inj hm
    rw [← hds] at hm  
    rw [hm] at ht
    simp only [pyTruthy] at ht
    have hnil : m = [] := by simpa using ht
    subst hnil
    intro kb hkb
    exact absurd hkb (List.not_mem_nil kb)
  | true =>
    simp only [ht, if_true] at hp
    cases hv : dictGetD (rowDecode row) (S "seasons") .none with
    | dict m0 =>
      simp only [hv] at hp
      cases hmv : mapValsE rowNormalizeSeasonInfo m0 with
      | error e => simp only [hmv] at hp; exact Except.noConfusion hp
      | ok m1 =>
        simp only [hmv, Except.ok.injEq] at hp
        rw [← hp, dictGet_dictSet_self] at hm
        obtain rfl : m1 = m := PyVal.dict.inj (Option.some.inj hm)
        intro kb hkb bkvs eps h1 h2 e he ekvs hek
        obtain ⟨w, _, hw⟩ := mapValsE_mem hmv kb hkb
        exact rowNormalizeSeasonInfo_ok hw bkvs eps h1 h2 e he ekvs hek
    | none =>
      simp only [hv, Except.ok.injEq] at hp
      rw [← hp, hG] at hm
      replace hm := Option.some.inj hm
      rw [← hds, hv] at hm
      exact absurd hm (by simp)
    | bool c =>
      simp only [hv, Except.ok.injEq] at hp
      rw [← hp, hG] at hm
      replace hm := Option.some.inj hm
      rw [← hds, hv] at hm
      exact absurd hm (by simp)
    | int n =>
      simp only [hv, Except.ok.injEq] at hp
      rw [← hp, hG] at hm
      replace hm := Option.some.inj hm
      rw [← hds, hv] at hm
      exact absurd hm (by simp)
    | float q =>
      simp only [hv, Except.ok.injEq] at hp
      rw [← hp, hG] at hm
      replace hm := Option.some.inj hm
      rw [← hds, hv] at hm
      exact absurd hm (by simp)
    | str s1 =>
      simp only [hv, Except.ok.injEq] at hp
      rw [← hp, hG] at hm
      replace hm := Option.some.inj hm
      rw [← hds, hv] at hm
      exact absurd hm (by simp)
    | list xs =>
      simp only [hv, Except.ok.injEq] at hp
      rw [← hp, hG] at hm
      replace hm := Option.some.inj hm
      rw [← hds, hv] at hm
      exact absurd hm (by simp)


/-- C1 counterexample: the read path only back-fills a wholly missing
`subtitles` entry; an episode stored with a partial subtitles map comes back
from `parse_media_row` still missing the `sinhala` key, so not every episode
in a returned row has both language keys. -/
theorem claim_C1_counterexample :
    (match parse_media_row rowC1 with
     | .ok md => pathGet (.dict md)
         [.key (S "seasons"), .key (S "season_1"), .key (S "episodes"), .idx 0,
          .key (S "subtitles")]
     | .error _ => Option.none) = some (.dict [(S "english", .list [])]) ∧
    (match parse_media_row rowC1 with
     | .ok md => pathGet (.dict md)
         [.key (S "seasons"), .key (S "season_1"), .key (S "episodes"), .idx 0,
          .key (S "subtitles"), .key (S "sinhala")]
     | .error _ => Option.none) = Option.none := by
  exact ⟨rfl, rfl⟩

/-- C1 (amended): every episode surviving the seasons-normalization of
`prepare_media_data` is a dict with a `subtitles` entry whose dict form has
both language keys back-filled; every episode appended by `add_episode`
carries a subtitles map with exactly the two language keys; on the read
path, `parse_media_row` guarantees only that each episode dict has a
non-absent `subtitles` entry — a present but partial subtitles map is left
as stored, without the missing language keys. -/
theorem claim_C1 :
    (∀ (data : List (Str × PyVal)) (p : Prepared) (m : List (Str × PyVal)),
       prepare_media_data data = .ok p → p.seasons = .dict m →
       ∀ kb ∈ m, ∀ bkvs eps, kb.2 = .dict bkvs →
         dictGet bkvs (S "episodes") = some (.list eps) →
         ∀ e ∈ eps, episodeComplete e) ∧
    (∀ (data sn ed : PyVal), episodeFromRequest data = .ok (sn, ed) →
       ∃ ekvs ve vs, ed = .dict ekvs ∧
         dictGet ekvs (S "subtitles")
           = some (.dict [(S "english", ve), (S "sinhala", vs)])) ∧
    (∀ (row md m : List (Str × PyVal)),
       parse_media_row row = .ok md → dictGet md (S "seasons") = some (.dict m) →
       ∀ kb ∈ m, ∀ bkvs eps, kb.2 = .dict bkvs →
         dictGet bkvs (S "episodes") = some (.list eps) →
         ∀ e ∈ eps, ∀ ekvs, e = .dict ekvs →
           (dictGet ekvs (S "subtitles")).isSome = true) := by
  refine ⟨?_, ?_, ?_⟩
  · intro data p m hp hm
    obtain ⟨yt, ss, _, hss, rfl⟩ := (prepare_media_data_ok_iff data p).mp hp
    have hsm : ss = .dict m := hm
    exact prepareSeasons_ok hss m hsm
  · intro data sn ed h
    cases data with
    | dict kvs =>
      simp only [episodeFromRequest, pyGetD, ok_bind] at h
      cases hvl : dictGetD kvs (S "video_links") (.dict []) with
      | dict vkvs =>
        cases hdl : dictGetD kvs (S "download_links") (.dict []) with
        | dict dkvs =>
          cases htl : dictGetD kvs (S "telegram_links") (.dict []) with
          | dict tkvs =>
            cases htor : dictGetD kvs (S "torrent_links") (.dict []) with
            | dict torkvs =>
              simp only [hvl, hdl, htl, htor, ok_bind, pure_eq_ok, Except.ok.injEq,
                Prod.mk.injEq] at h
              obtain ⟨hsn, hed⟩ := h
              refine ⟨_,
                parse_subtitle_input (dictGetD kvs (S "english_subtitles") (.str [])),
                parse_subtitle_input (dictGetD kvs (S "sinhala_subtitles") (.str [])),
                hed.symm, ?_⟩
              simp +decide only [dictGet, if_false, if_true]
            | none =>
              simp only [hvl, hdl, htl, htor, ok_bind, error_bind] at h
              exact Except.noConfusion h
            | bool c1 =>
              simp only [hvl, hdl, htl, htor, ok_bind, error_bind] at h
              exact Except.noConfusion h
            | int n1 =>
              simp only [hvl, hdl, htl, htor, ok_bind, error_bind] at h
              exact Except.noConfusion h
            | float q1 =>
              simp only [hvl, hdl, htl, htor, ok_bind, error_bind] at h
              exact Except.noConfusion h
            | str s1 =>
              simp only [hvl, hdl, htl, htor, ok_bind, error_bind] at h
              exact Except.noConfusion h
            | list xs1 =>
              simp only [hvl, hdl, htl, htor, ok_bind, error_bind] at h
              exact Except.noConfusion h
          | none =>
            simp only [hvl, hdl, htl, ok_bind, error_bind] at h
            exact Except.noConfusion h
          | bool c1 =>
            simp only [hvl, hdl, htl, ok_bind, error_bind] at h
            exact Except.noConfusion h
          | int n1 =>
            simp only [hvl, hdl, htl, ok_bind, error_bind] at h
            exact Except.noConfusion h
          | float q1 =>
            simp only [hvl, hdl, htl, ok_bind, error_bind] at h
            exact Except.noConfusion h
          | str s1 =>
            simp only [hvl, hdl, htl, ok_bind, error_bind] at h
            exact Except.noConfusion h
          | list xs1 =>
            simp only [hvl, hdl, htl, ok_bind, error_bind] at h
            exact Except.noConfusion h
        | none =>
          simp only [hvl, hdl, ok_bind, error_bind] at h
          exact Except.noConfusion h
        | bool c1 =>
          simp only [hvl, hdl, ok_bind, error_bind] at h
          exact Except.noConfusion h
        | int n1 =>
          simp only [hvl, hdl, ok_bind, error_bind] at h
          exact Except.noConfusion h
        | float q1 =>
          simp only [hvl, hdl, ok_bind, error_bind] at h
          exact Except.noConfusion h
        | str s1 =>
          simp only [hvl, hdl, ok_bind, error_bind] at h
          exact Except.noConfusion h
        | list xs1 =>
          simp only [hvl, hdl, ok_bind, error_bind] at h
          exact Except.noConfusion h
      | none =>
        simp only [hvl, ok_bind, error_bind] at h
        exact Except.noConfusion h
      | bool c1 =>
        simp only [hvl, ok_bind, error_bind] at h
        exact Except.noConfusion h
      | int n1 =>
        simp only [hvl, ok_bind, error_bind] at h
        exact Except.noConfusion h
      | float q1 =>
        simp only [hvl, ok_bind, error_bind] at h
        exact Except.noConfusion h
      | str s1 =>
        simp only [hvl, ok_bind, error_bind] at h
        exact Except.noConfusion h
      | list xs1 =>
        simp only [hvl, ok_bind, error_bind] at h
        exact Except.noConfusion h
    | none => simp [episodeFromRequest, pyGetD, error_bind] at h
    | bool b => simp [episodeFromRequest, pyGetD, error_bind] at h
    | int n => simp [episodeFromRequest, pyGetD, error_bind] at h
    | float q => simp [episodeFromRequest, pyGetD, error_bind] at h
    | str s => simp [episodeFromRequest, pyGetD, error_bind] at h
    | list xs => simp [episodeFromRequest, pyGetD, error_bind] at h
  · intro row md m hp hm
    exact parse_media_row_seasons_ok hp hm

theorem claim_C1_witness :
    episodeComplete (.dict [(S "subtitles", subsDefault)]) ∧
    (dictGet [(S "subtitles", subsDefault)] (S "subtitles")).isSome = true := by
  constructor
  · exact claim_C1.1
      [(S "title", .str (S "T")),
       (S "seasons", .dict [(S "season_1", .dict [(S "episodes", .list [.dict []])])])]
      _ _ rfl rfl _ (List.mem_singleton.mpr rfl) _ _ rfl rfl _ (List.mem_singleton.mpr rfl)
  · exact claim_C1.2.2
      [(S "seasons", .dict [(S "season_1", .dict [(S "episodes", .list [.dict []])])])]
      _ _ rfl rfl _ (List.mem_singleton.mpr rfl) _ _ rfl rfl _
      (List.mem_singleton.mpr rfl) _ rfl

/-! ### C6: extract_youtube_id -/


theorem ytSearch_none_all (pat s : Str)
    (h : ∀ t, t <:+ s → ytMatchAt pat t = Option.none) :
    ytSearch pat s = Option.none := by
  induction s with
  | nil => simpa [ytSearch] using h [] (List.suffix_refl [])
  | cons c cs ih =>
    have h0 : ytMatchAt pat (c :: cs) = Option.none := h _ (List.suffix_refl _)
    simp only [ytSearch, h0]
    exact ih (fun t ht => h t (ht.trans (List.suffix_cons c cs)))

theorem ytSearch_hit (pat s r : Str) (h : ytMatchAt pat s = some r) :
    ytSearch pat s = some r := by
  cases s with
  | nil => simpa [ytSearch] using h
  | cons c cs => simp only [ytSearch, h]

theorem prefix_append_cases {pat a b : Str} (h : pat <+: a ++ b) :
    pat <+: a ∨ (a <+: pat ∧ pat.drop a.length <+: b) := by
  induction a generalizing pat with
  | nil => exact Or.inr ⟨List.nil_prefix, by simpa using h⟩
  | cons x a' ih =>
    cases pat with
    | nil => exact Or.inl (List.nil_prefix)
    | cons y pat' =>
      rw [List.cons_append, List.cons_prefix_cons] at h
      obtain ⟨rfl, h'⟩ := h
      rcases ih h' with h1 | ⟨h1, h2⟩
      · exact Or.inl (List.cons_prefix_cons.mpr ⟨rfl, h1⟩)
      · exact Or.inr ⟨List.cons_prefix_cons.mpr ⟨rfl, h1⟩, by simpa using h2⟩

theorem suffix_append_cases {t a b : Str} (h : t <:+ a ++ b) :
    (∃ i, i ≤ a.length ∧ t = a.drop i ++ b) ∨ t <:+ b := by
  obtain ⟨u, hu⟩ := h
  by_cases hl : u.length ≤ a.length
  · left
    refine ⟨u.length, hl, ?_⟩
    have h := congrArg (List.drop u.length) hu
    rw [List.drop_left, List.drop_append_of_le_length hl] at h
    exact h
  · right
    have hlen : a.length ≤ u.length := le_of_not_le hl
    refine ⟨u.drop a.length, ?_⟩
    have h := congrArg (List.drop a.length) hu
    rw [List.drop_append_of_le_length hlen, List.drop_left] at h
    exact h

theorem ytMatchAt_none_of_not_prefix (pat s : Str) (h : pat.isPrefixOf s = false) :
    ytMatchAt pat s = Option.none := by
  simp [ytMatchAt, h]

theorem ytMatchAt_none_nonword (pat s : Str) (c0 : Char) (hc0 : c0 ∈ pat)
    (hnw : ytWordChar c0 = false) (hs : s.all ytWordChar = true) :
    ytMatchAt pat s = Option.none := by
  apply ytMatchAt_none_of_not_prefix
  by_contra hp
  have hp' : pat.isPrefixOf s = true := by
    cases h : pat.isPrefixOf s
    · exact absurd h hp
    · rfl
  have hpre := List.isPrefixOf_iff_prefix.mp hp'
  have := List.all_eq_true.mp hs _ (hpre.subset hc0)
  rw [hnw] at this
  exact Bool.noConfusion this

/-- Master lemma: searching `pat` in `pre ++ id` finds nothing when `id` is all
word characters, `pat` occurs nowhere inside `pre`, and every suffix of `pre`
that is a prefix of `pat` leaves a non-word character in the rest of `pat`. -/
theorem ytSearch_pre_id_none (pat pre id : Str)
    (hw : id.all ytWordChar = true)
    (hA : ((List.range (pre.length + 1)).all
        (fun i => !(pat.isPrefixOf (pre.drop i)))) = true)
    (hB : ((List.range (pre.length + 1)).all
        (fun i => !((pre.drop i).isPrefixOf pat)
          || (pat.drop (pre.length - i)).any (fun c => !(ytWordChar c)))) = true) :
    ytSearch pat (pre ++ id) = Option.none := by
  have hnw : ∃ c0 ∈ pat, ytWordChar c0 = false := by
    have hBlast := List.all_eq_true.mp hB pre.length (by simp [List.mem_range])
    simp only [List.drop_length, Nat.sub_self, List.drop_zero] at hBlast
    have h2 : (pat.any (fun c => !(ytWordChar c))) = true := by
      cases h : pat.any (fun c => !(ytWordChar c))
      · rw [h] at hBlast
        simp [List.isPrefixOf] at hBlast
      · rfl
    obtain ⟨c0, hc0, hc0p⟩ := List.any_eq_true.mp h2
    exact ⟨c0, hc0, by simpa using hc0p⟩
  obtain ⟨c0, hc0, hc0w⟩ := hnw
  apply ytSearch_none_all
  intro t ht
  rcases suffix_append_cases ht with ⟨i, hi, rfl⟩ | hsuf
  · apply ytMatchAt_none_of_not_prefix
    by_contra hp
    have hp' : pat.isPrefixOf (pre.drop i ++ id) = true := by
      cases h : pat.isPrefixOf (pre.drop i ++ id)
      · exact absurd h hp
      · rfl
    have hpre := List.isPrefixOf_iff_prefix.mp hp'
    rcases prefix_append_cases hpre with h1 | ⟨h1, h2⟩
    · have hAi := List.all_eq_true.mp hA i (by simp [List.mem_range]; omega)
      rw [List.isPrefixOf_iff_prefix.mpr h1] at hAi
      exact Bool.noConfusion hAi
    · have hBi := List.all_eq_true.mp hB i (by simp [List.mem_range]; omega)
      rw [List.isPrefixOf_iff_prefix.mpr h1] at hBi
      simp only [Bool.not_true, Bool.false_or] at hBi
      rw [List.length_drop] at h2
      obtain ⟨c1, hc1, hc1'⟩ := List.any_eq_true.mp hBi
      have : ytWordChar c1 = true := List.all_eq_true.mp hw _ (h2.subset hc1)
      rw [this] at hc1'
      exact Bool.noConfusion hc1'
  · exact ytMatchAt_none_nonword pat t c0 hc0 hc0w
      (List.all_eq_true.mpr fun x hx => List.all_eq_true.mp hw x (hsuf.subset hx))

theorem ytMatchAt_exact (pat id : Str) (h11 : id.length = 11)
    (hw : id.all ytWordChar = true) :
    ytMatchAt pat (pat ++ id) = some id := by
  unfold ytMatchAt
  rw [if_pos (List.isPrefixOf_iff_prefix.mpr (List.prefix_append pat id))]
  simp only [List.drop_left]
  rw [← h11, List.take_length]
  rw [if_pos (by simp [h11, hw])]

theorem ytMatchAt_head_miss (p0 c : Char) (pr cs : Str) (hc : (p0 == c) = false) :
    ytMatchAt (p0 :: pr) (c :: cs) = Option.none := by
  apply ytMatchAt_none_of_not_prefix
  simp only [List.isPrefixOf, hc, Bool.false_and]

/-- Hit lemma: when the first character of `pat` appears nowhere in `pre0`, the
leftmost match of `pat` in `pre0 ++ pat ++ id` is the full `id`. -/
theorem ytSearch_pre_pat_id_hit (p0 : Char) (pr pre0 id : Str)
    (h11 : id.length = 11) (hw : id.all ytWordChar = true)
    (hC : (pre0.all (fun c => !(p0 == c))) = true) :
    ytSearch (p0 :: pr) (pre0 ++ ((p0 :: pr) ++ id)) = some id := by
  induction pre0 with
  | nil =>
    rw [List.nil_append]
    exact ytSearch_hit _ _ _ (ytMatchAt_exact (p0 :: pr) id h11 hw)
  | cons c cs ih =>
    have hc : (p0 == c) = false := by
      have := List.all_eq_true.mp hC c (List.mem_cons_self c cs)
      simpa using this
    rw [List.cons_append]
    simp only [ytSearch, ytMatchAt_head_miss p0 c pr _ hc]
    exact ih (List.all_eq_true.mpr fun x hx =>
      List.all_eq_true.mp hC x (List.mem_cons_of_mem c hx))

theorem ytMatchAt_none_short (pat s : Str) (h : s.length < pat.length + 11) :
    ytMatchAt pat s = Option.none := by
  unfold ytMatchAt
  by_cases hp : pat.isPrefixOf s = true
  · rw [if_pos hp]
    have hle := (List.isPrefixOf_iff_prefix.mp hp).length_le
    have hlen : ((s.drop pat.length).take 11).length ≠ 11 := by
      rw [List.length_take, List.length_drop]
      omega
    rw [if_neg (fun hc => by
      rw [Bool.and_eq_true] at hc
      exact hlen (by simpa using hc.1))]
  · rw [if_neg hp]

theorem ytSearch_none_short (pat s : Str) (h : s.length < pat.length + 11) :
    ytSearch pat s = Option.none := by
  apply ytSearch_none_all
  intro t ht
  exact ytMatchAt_none_short pat t (lt_of_le_of_lt ht.length_le h)

theorem extract_wordChar_fun :
    (fun c : Char => c.isAlphanum || c = '-' || c = '_') = ytWordChar := by
  funext c
  simp [ytWordChar, Bool.or_assoc, Bool.or_comm, Bool.or_left_comm]

theorem ytSearch_none_nonword (pat s : Str) (c0 : Char) (hc0 : c0 ∈ pat)
    (hnw : ytWordChar c0 = false) (hs : s.all ytWordChar = true) :
    ytSearch pat s = Option.none := by
  apply ytSearch_none_all
  intro t ht
  exact ytMatchAt_none_nonword pat t c0 hc0 hnw
    (List.all_eq_true.mpr fun x hx => List.all_eq_true.mp hs x (ht.subset hx))

/-- C6: `extract_youtube_id` returns the captured 11-character id for every
URL in each of the four documented shapes (`watch?v=`, `youtu.be/`, `embed/`,
`v/`), returns a bare input verbatim exactly when it is itself 11 characters
drawn from alphanumerics, `-` and `_`, and returns absent for bare inputs of
other lengths or containing disallowed characters. -/
theorem claim_C6 :
    (∀ id : Str, id.length = 11 → id.all ytWordChar = true →
       extract_youtube_id (S "https://www.youtube.com/watch?v=" ++ id) = some id ∧
       extract_youtube_id (S "https://youtu.be/" ++ id) = some id ∧
       extract_youtube_id (S "https://www.youtube.com/embed/" ++ id) = some id ∧
       extract_youtube_id (S "https://www.youtube.com/v/" ++ id) = some id) ∧
    (∀ s : Str, s.length = 11 →
       extract_youtube_id s =
         (if s.all ytWordChar then some s else Option.none)) ∧
    (∀ s : Str, s.all ytWordChar = true → s.length ≠ 11 →
       extract_youtube_id s = Option.none) := by
  refine ⟨fun id h11 hw => ?_, fun s h11 => ?_, fun s hw hlen => ?_⟩
  · refine ⟨?_, ?_, ?_, ?_⟩
    · -- watch?v=
      have hs1 : ytSearch (S "youtube.com/watch?v=")
          (S "https://www.youtube.com/watch?v=" ++ id) = some id := by
        have hcat : S "https://www.youtube.com/watch?v="
            = S "https://www." ++ S "youtube.com/watch?v=" := by decide
        rw [hcat, List.append_assoc]
        exact ytSearch_pre_pat_id_hit 'y' (S "outube.com/watch?v=")
          (S "https://www.") id h11 hw (by decide)
      have hne : (S "https://www.youtube.com/watch?v=" ++ id).isEmpty = false := rfl
      simp only [extract_youtube_id, hne, Bool.false_eq_true, if_false, hs1]
    · -- youtu.be/
      have hs1 : ytSearch (S "youtube.com/watch?v=")
          (S "https://youtu.be/" ++ id) = Option.none :=
        ytSearch_pre_id_none _ _ _ hw (by decide) (by decide)
      have hs2 : ytSearch (S "youtu.be/")
          (S "https://youtu.be/" ++ id) = some id := by
        have hcat : S "https://youtu.be/" = S "https://" ++ S "youtu.be/" := by decide
        rw [hcat, List.append_assoc]
        exact ytSearch_pre_pat_id_hit 'y' (S "outu.be/")
          (S "https://") id h11 hw (by decide)
      have hne : (S "https://youtu.be/" ++ id).isEmpty = false := rfl
      simp only [extract_youtube_id, hne, Bool.false_eq_true, if_false, hs1, hs2]
    · -- embed/
      have hs1 : ytSearch (S "youtube.com/watch?v=")
          (S "https://www.youtube.com/embed/" ++ id) = Option.none :=
        ytSearch_pre_id_none _ _ _ hw (by decide) (by decide)
      have hs2 : ytSearch (S "youtu.be/")
          (S "https://www.youtube.com/embed/" ++ id) = Option.none :=
        ytSearch_pre_id_none _ _ _ hw (by decide) (by decide)
      have hs3 : ytSearch (S "youtube.com/embed/")
          (S "https://www.youtube.com/embed/" ++ id) = some id := by
        have hcat : S "https://www.youtube.com/embed/"
            = S "https://www." ++ S "youtube.com/embed/" := by decide
        rw [hcat, List.append_assoc]
        exact ytSearch_pre_pat_id_hit 'y' (S "outube.com/embed/")
          (S "https://www.") id h11 hw (by decide)
      have hne : (S "https://www.youtube.com/embed/" ++ id).isEmpty = false := rfl
      simp only [extract_youtube_id, hne, Bool.false_eq_true, if_false, hs1, hs2, hs3]
    · -- v/
      have hs1 : ytSearch (S "youtube.com/watch?v=")
          (S "https://www.youtube.com/v/" ++ id) = Option.none :=
        ytSearch_pre_id_none _ _ _ hw (by decide) (by decide)
      have hs2 : ytSearch (S "youtu.be/")
          (S "https://www.youtube.com/v/" ++ id) = Option.none :=
        ytSearch_pre_id_none _ _ _ hw (by decide) (by decide)
      have hs3 : ytSearch (S "youtube.com/embed/")
          (S "https://www.youtube.com/v/" ++ id) = Option.none :=
        ytSearch_pre_id_none _ _ _ hw (by decide) (by decide)
      have hs4 : ytSearch (S "youtube.com/v/")
          (S "https://www.youtube.com/v/" ++ id) = some id := by
        have hcat : S "https://www.youtube.com/v/"
            = S "https://www." ++ S "youtube.com/v/" := by decide
        rw [hcat, List.append_assoc]
        exact ytSearch_pre_pat_id_hit 'y' (S "outube.com/v/")
          (S "https://www.") id h11 hw (by decide)
      have hne : (S "https://www.youtube.com/v/" ++ id).isEmpty = false := rfl
      simp only [extract_youtube_id, hne, Bool.false_eq_true, if_false,
        hs1, hs2, hs3, hs4]
  · -- bare, length 11
    cases s with
    | nil => simp at h11
    | cons c cs =>
      have hne : (c :: cs).isEmpty = false := rfl
      have hs1 : ytSearch (S "youtube.com/watch?v=") (c :: cs) = Option.none :=
        ytSearch_none_short _ _ (by rw [h11]; decide)
      have hs2 : ytSearch (S "youtu.be/") (c :: cs) = Option.none :=
        ytSearch_none_short _ _ (by rw [h11]; decide)
      have hs3 : ytSearch (S "youtube.com/embed/") (c :: cs) = Option.none :=
        ytSearch_none_short _ _ (by rw [h11]; decide)
      have hs4 : ytSearch (S "youtube.com/v/") (c :: cs) = Option.none :=
        ytSearch_none_short _ _ (by rw [h11]; decide)
      have hb : ((c :: cs).length == 11) = true := by simp [h11]
      simp only [extract_youtube_id, hne, Bool.false_eq_true, if_false,
        hs1, hs2, hs3, hs4, extract_wordChar_fun, hb, Bool.true_and]
  · -- all word characters, wrong length
    cases s with
    | nil => rfl
    | cons c cs =>
      have hne : (c :: cs).isEmpty = false := rfl
      have hs1 : ytSearch (S "youtube.com/watch?v=") (c :: cs) = Option.none :=
        ytSearch_none_nonword _ _ '.' (by decide) (by decide) hw
      have hs2 : ytSearch (S "youtu.be/") (c :: cs) = Option.none :=
        ytSearch_none_nonword _ _ '.' (by decide) (by decide) hw
      have hs3 : ytSearch (S "youtube.com/embed/") (c :: cs) = Option.none :=
        ytSearch_none_nonword _ _ '.' (by decide) (by decide) hw
      have hs4 : ytSearch (S "youtube.com/v/") (c :: cs) = Option.none :=
        ytSearch_none_nonword _ _ '.' (by decide) (by decide) hw
      have hb : ((c :: cs).length == 11) = false := beq_eq_false_iff_ne.mpr hlen
      simp only [extract_youtube_id, hne, Bool.false_eq_true, if_false,
        hs1, hs2, hs3, hs4, hb, Bool.false_and]

theorem claim_C6_witness :
    extract_youtube_id (S "https://www.youtube.com/watch?v=" ++ S "dQw4w9WgXcQ")
      = some (S "dQw4w9WgXcQ") ∧
    extract_youtube_id (S "dQw4w9WgXcQ")
      = (if (S "dQw4w9WgXcQ").all ytWordChar then some (S "dQw4w9WgXcQ")
         else Option.none) ∧
    extract_youtube_id (S "abc") = Option.none :=
  ⟨(claim_C6.1 (S "dQw4w9WgXcQ") (by decide) (by decide)).1,
   claim_C6.2.1 (S "dQw4w9WgXcQ") (by decide),
   claim_C6.2.2 (S "abc") (by decide) (by decide)⟩

/-! ### C7: list-like input shapes -/

theorem joinSep_cons (c : Char) (u : Str) (us : List Str) (h : us ≠ []) :
    joinSep c (u :: us) = u ++ c :: joinSep c us := by
  cases us with
  | nil => exact absurd rfl h
  | cons v vs => rfl

theorem splitChar_ne_nil (c : Char) (s : Str) : splitChar c s ≠ [] := by
  cases s with
  | nil => simp [splitChar]
  | cons x xs =>
    simp only [splitChar]
    match h : splitChar c xs with
    | [] => simp
    | r :: rs =>
      by_cases hx : x = c <;> simp [hx]

theorem splitChar_no_sep (c : Char) (u : Str) (h : ∀ x ∈ u, x ≠ c) :
    splitChar c u = [u] := by
  induction u with
  | nil => rfl
  | cons x xs ih =>
    have ihx := ih (fun y hy => h y (List.mem_cons_of_mem x hy))
    simp only [splitChar, ihx]
    rw [if_neg (h x (List.mem_cons_self x xs))]

theorem splitChar_append_sep (c : Char) (u t : Str) (h : ∀ x ∈ u, x ≠ c) :
    splitChar c (u ++ c :: t) = u :: splitChar c t := by
  induction u with
  | nil =>
    simp only [List.nil_append, splitChar]
    match ht : splitChar c t with
    | [] => exact absurd ht (splitChar_ne_nil c t)
    | r :: rs => simp
  | cons x xs ih =>
    have ihx := ih (fun y hy => h y (List.mem_cons_of_mem x hy))
    simp only [List.cons_append, splitChar, List.append_eq, ihx]
    rw [if_neg (h x (List.mem_cons_self x xs))]

theorem splitChar_joinSep (c : Char) (us : List Str) (hne : us ≠ [])
    (h : ∀ u ∈ us, ∀ x ∈ u, x ≠ c) :
    splitChar c (joinSep c us) = us := by
  induction us with
  | nil => exact absurd rfl hne
  | cons u vs ih =>
    cases vs with
    | nil => exact splitChar_no_sep c u (h u (List.mem_cons_self u []))
    | cons v ws =>
      rw [joinSep_cons c u (v :: ws) (by simp)]
      rw [splitChar_append_sep c u _ (h u (List.mem_cons_self u _))]
      rw [ih (by simp) (fun w hw x hx => h w (List.mem_cons_of_mem u hw) x hx)]

theorem pyStrip_id (u : Str) (h : ∀ x ∈ u, isSpaceA x = false) : pyStrip u = u := by
  have h1 : u.dropWhile isSpaceA = u := by
    cases u with
    | nil => rfl
    | cons x xs =>
      rw [List.dropWhile_cons, if_neg (by simp [h x (List.mem_cons_self x xs)])]
  rw [pyStrip, h1]
  have h2 : u.reverse.dropWhile isSpaceA = u.reverse := by
    cases hr : u.reverse with
    | nil => rfl
    | cons x xs =>
      have hx : x ∈ u := by
        rw [← List.mem_reverse, hr]; exact List.mem_cons_self x xs
      rw [List.dropWhile_cons, if_neg (by simp [h x hx])]
  rw [h2, List.reverse_reverse]

theorem plainChar_spec (c : Char) (h : plainChar c = true) :
    32 ≤ c.toNat ∧ isSpaceA c = false ∧ c ≠ ',' ∧ c ≠ '"' ∧ c ≠ '\\' ∧
    c ≠ '[' ∧ c ≠ ']' := by
  simp only [plainChar, Bool.and_eq_true, Bool.not_eq_true',
    decide_eq_false_iff_not, decide_eq_true_eq] at h
  exact ⟨h.1.1.1.1.1.1, h.1.1.1.1.1.2, h.1.1.1.1.2, h.1.1.1.2, h.1.1.2,
    h.1.2, h.2⟩

theorem goodUrls_mem {us : List Str} {u : Str} (hg : goodUrls us = true)
    (hu : u ∈ us) : u ≠ [] ∧ ∀ x ∈ u, plainChar x = true := by
  have h := List.all_eq_true.mp hg u hu
  simp only [goodUrl, Bool.and_eq_true, Bool.not_eq_true',
    List.isEmpty_eq_false, List.isEmpty_iff] at h
  exact ⟨h.1, List.all_eq_true.mp h.2⟩

theorem comma_pipeline (us : List Str) (hne : us ≠ []) (hg : goodUrls us = true) :
    (((splitChar ',' (joinSep ',' us)).map pyStrip).filter
      (fun t => !t.isEmpty)).map PyVal.str = us.map PyVal.str := by
  rw [splitChar_joinSep ',' us hne
    (fun u hu x hx => ((plainChar_spec x ((goodUrls_mem hg hu).2 x hx)).2.2.1))]
  have hstrip : us.map pyStrip = us := by
    have : us.map pyStrip = us.map id := List.map_congr_left
      (fun u hu => pyStrip_id u
        (fun x hx => (plainChar_spec x ((goodUrls_mem hg hu).2 x hx)).2.1))
    rw [this, List.map_id]
  rw [hstrip]
  have hfilt : us.filter (fun t => !t.isEmpty) = us := by
    rw [List.filter_eq_self]
    intro u hu
    simp [List.isEmpty_iff, (goodUrls_mem hg hu).1]
  rw [hfilt]

theorem str_plain_branch (x : Char) (r : Str) (hx : plainChar x = true) :
    parse_subtitle_input (.str (x :: r)) =
      .list ((((splitChar ',' (x :: r)).map pyStrip).filter
        (fun t => !t.isEmpty)).map PyVal.str) ∧
    process_screenshots (.str (x :: r)) =
      .list ((((splitChar ',' (x :: r)).map pyStrip).filter
        (fun t => !t.isEmpty)).map PyVal.str) := by
  have hbr : (['['].isPrefixOf (x :: r)) = false := by
    have : ('[' == x) = false :=
      beq_eq_false_iff_ne.mpr (Ne.symm (plainChar_spec x hx).2.2.2.2.2.1)
    simp [List.isPrefixOf, this]
  constructor
  · simp only [parse_subtitle_input, pyTruthy, List.isEmpty_cons,
      Bool.not_false, Bool.not_true, Bool.false_eq_true, if_false, hbr,
      Bool.false_and]
  · simp only [process_screenshots, hbr, Bool.false_and, Bool.false_eq_true,
      if_false]

theorem comma_shape (us : List Str) (hg : goodUrls us = true) :
    parse_subtitle_input (.str (joinSep ',' us)) = .list (us.map PyVal.str) ∧
    process_screenshots (.str (joinSep ',' us)) = .list (us.map PyVal.str) := by
  cases us with
  | nil => exact ⟨rfl, rfl⟩
  | cons u vs =>
    obtain ⟨x, xs, rfl⟩ : ∃ x xs, u = x :: xs := by
      have := (goodUrls_mem hg (List.mem_cons_self u vs)).1
      cases u with
      | nil => exact absurd rfl this
      | cons x xs => exact ⟨x, xs, rfl⟩
    have hx : plainChar x = true :=
      (goodUrls_mem hg (List.mem_cons_self _ vs)).2 x (List.mem_cons_self x xs)
    cases vs with
    | nil =>
      constructor
      · show parse_subtitle_input (.str (x :: xs)) = _
        rw [(str_plain_branch x xs hx).1]
        exact congrArg PyVal.list (comma_pipeline [x :: xs] (by simp) hg)
      · show process_screenshots (.str (x :: xs)) = _
        rw [(str_plain_branch x xs hx).2]
        exact congrArg PyVal.list (comma_pipeline [x :: xs] (by simp) hg)
    | cons v ws =>
      constructor
      · show parse_subtitle_input
          (.str (x :: (xs ++ ',' :: joinSep ',' (v :: ws)))) = _
        rw [(str_plain_branch x _ hx).1]
        exact congrArg PyVal.list
          (comma_pipeline ((x :: xs) :: v :: ws) (by simp) hg)
      · show process_screenshots
          (.str (x :: (xs ++ ',' :: joinSep ',' (v :: ws)))) = _
        rw [(str_plain_branch x _ hx).2]
        exact congrArg PyVal.list
          (comma_pipeline ((x :: xs) :: v :: ws) (by simp) hg)

theorem skipWs_cons_not (c : Char) (t : Str) (h : jsonWs c = false) :
    skipWs (c :: t) = c :: t := by
  simp [skipWs, List.dropWhile_cons, h]

theorem parseJStr_plain (u t : Str) (hu : ∀ x ∈ u, plainChar x = true) :
    parseJStr (u ++ ('"' :: t)) = some (u, t) := by
  induction u with
  | nil =>
    rw [List.nil_append, parseJStr.eq_def]
    simp
  | cons x xs ih =>
    have hx := plainChar_spec x (hu x (List.mem_cons_self x xs))
    have ihx := ih (fun y hy => hu y (List.mem_cons_of_mem x hy))
    rw [List.cons_append, parseJStr.eq_def]
    simp only []
    rw [if_neg hx.2.2.2.1, if_neg hx.2.2.2.2.1, if_neg (by omega)]
    rw [ihx]
    rfl

theorem parseJVal_str (fuel : Nat) (u t : Str) (hu : ∀ x ∈ u, plainChar x = true) :
    parseJVal (fuel + 1) ('"' :: (u ++ ('"' :: t))) = some (.str u, t) := by
  rw [parseJVal, skipWs_cons_not _ _ (by decide)]
  simp only []
  rw [if_neg (by decide), if_neg (by decide), if_neg (by decide), if_pos trivial]
  rw [parseJStr_plain u t hu]

theorem parseJArrItems_quoted (us : List Str) (hg : goodUrls us = true) :
    ∀ (fuel : Nat) (acc : List PyVal), us.length + 1 ≤ fuel → us ≠ [] →
    parseJArrItems fuel (joinSep ',' (us.map quoteJ) ++ [']']) acc
      = some (.list (acc ++ us.map PyVal.str), []) := by
  induction us with
  | nil => exact fun fuel acc hf hne => absurd rfl hne
  | cons u vs ih =>
    intro fuel acc hf hne
    have hu : ∀ x ∈ u, plainChar x = true :=
      (goodUrls_mem hg (List.mem_cons_self u vs)).2
    obtain ⟨f, rfl⟩ : ∃ f, fuel = f + 2 := ⟨fuel - 2, by simp at hf; omega⟩
    cases vs with
    | nil =>
      have hshape : joinSep ',' ([u].map quoteJ) ++ [']']
          = '"' :: (u ++ ('"' :: [']'])) := by
        simp [joinSep, quoteJ, List.append_assoc]
      rw [hshape, parseJArrItems, parseJVal_str f u [']'] hu]
      rfl
    | cons v ws =>
      have hgtail : goodUrls (v :: ws) = true := by
        simp only [goodUrls, List.all_cons, Bool.and_eq_true] at hg ⊢
        exact hg.2
      have hshape : joinSep ',' ((u :: v :: ws).map quoteJ) ++ [']']
          = '"' :: (u ++ ('"' :: (',' ::
              (joinSep ',' ((v :: ws).map quoteJ) ++ [']'])))) := by
        rw [List.map_cons, joinSep_cons ',' (quoteJ u) _ (by simp), quoteJ]
        simp [List.append_assoc]
      rw [hshape, parseJArrItems, parseJVal_str f u _ hu]
      simp only []
      rw [skipWs_cons_not ',' _ (by decide)]
      simp only []
      rw [ih hgtail (f + 1) (acc ++ [PyVal.str u]) (by simp at hf ⊢; omega)
        (by simp)]
      simp [List.append_assoc]

theorem length_le_joinSep_quoted (us : List Str) :
    us.length ≤ (joinSep ',' (us.map quoteJ)).length := by
  induction us with
  | nil => simp [joinSep]
  | cons u vs ih =>
    cases vs with
    | nil => simp [joinSep, quoteJ]
    | cons v ws =>
      rw [List.map_cons, joinSep_cons ',' (quoteJ u) _ (by simp)]
      simp only [List.length_append, List.length_cons, List.length_map] at ih ⊢
      simp [quoteJ] at *
      omega

theorem jsonLoads_jsonArr (us : List Str) (hg : goodUrls us = true) :
    jsonLoads (jsonArr us) = some (.list (us.map PyVal.str)) := by
  cases us with
  | nil => rfl
  | cons u vs =>
    unfold jsonLoads
    rw [show 2 * (jsonArr (u :: vs)).length + 2
        = (2 * (jsonArr (u :: vs)).length + 1) + 1 from rfl]
    rw [parseJVal]
    rw [show jsonArr (u :: vs)
        = '[' :: (joinSep ',' ((u :: vs).map quoteJ) ++ [']']) from rfl]
    rw [skipWs_cons_not '[' _ (by decide)]
    simp only []
    rw [if_neg (by decide), if_neg (by decide), if_neg (by decide)]
    rw [if_neg (by decide)]
    rw [if_pos trivial]
    obtain ⟨x, xs, rfl⟩ : ∃ x xs, u = x :: xs := by
      have := (goodUrls_mem hg (List.mem_cons_self u vs)).1
      cases u with
      | nil => exact absurd rfl this
      | cons x xs => exact ⟨x, xs, rfl⟩
    have hx : plainChar x = true :=
      (goodUrls_mem hg (List.mem_cons_self _ vs)).2 x (List.mem_cons_self x xs)
    have hcons : ∃ t, joinSep ',' (((x :: xs) :: vs).map quoteJ) ++ [']']
        = '"' :: t := by
      cases vs with
      | nil => exact ⟨(x :: xs) ++ ['"', ']'], by simp [joinSep, quoteJ]⟩
      | cons v ws =>
        exact ⟨(x :: xs) ++ ('"' :: (',' ::
            (joinSep ',' ((v :: ws).map quoteJ) ++ [']']))), by
          rw [List.map_cons, joinSep_cons ',' _ _ (by simp), quoteJ]
          simp [List.append_assoc]⟩
    obtain ⟨t, ht⟩ := hcons
    rw [ht, skipWs_cons_not '"' _ (by decide)]
    have hfuel : ((x :: xs) :: vs).length + 1
        ≤ 2 * ('[' :: '"' :: t).length + 1 := by
      have h1 := length_le_joinSep_quoted ((x :: xs) :: vs)
      have h2 : (joinSep ',' (((x :: xs) :: vs).map quoteJ)).length
          = t.length := by
        have h3 := congrArg List.length ht
        simpa using h3
      simp at h1 h2 ⊢
      omega
    have harr := parseJArrItems_quoted ((x :: xs) :: vs) hg
      (2 * ('[' :: '"' :: t).length + 1) [] hfuel (by simp)
    rw [ht] at harr
    simp only [List.length_cons] at harr
    simp [harr, skipWs]

theorem json_shape (us : List Str) (hg : goodUrls us = true) :
    parse_subtitle_input (.str (jsonArr us)) = .list (us.map PyVal.str) ∧
    process_screenshots (.str (jsonArr us)) = .list (us.map PyVal.str) := by
  have hpre : (['['].isPrefixOf (jsonArr us)) = true := by
    rw [jsonArr]
    simp [List.isPrefixOf]
  have hsuf : ([']'].isSuffixOf (jsonArr us)) = true := by
    rw [List.isSuffixOf_iff_suffix]
    exact ⟨'[' :: joinSep ',' (us.map quoteJ), by simp [jsonArr]⟩
  have hsafe : safe_json_loads (.str (jsonArr us)) (.list [])
      = .list (us.map PyVal.str) := by
    rw [safe_json_loads]
    rw [if_neg (by simp [jsonArr])]
    rw [jsonLoads_jsonArr us hg]
    rfl
  constructor
  · rw [parse_subtitle_input]
    rw [if_neg (by simp [pyTruthy, jsonArr])]
    rw [if_pos (by rw [hpre, hsuf]; rfl)]
    exact hsafe
  · rw [process_screenshots]
    rw [if_pos (by rw [hpre, hsuf]; rfl)]
    exact hsafe

theorem list_shape (xs : List PyVal) :
    parse_subtitle_input (.list xs) = .list xs ∧
    process_screenshots (.list xs) = .list xs := by
  cases xs with
  | nil => exact ⟨rfl, rfl⟩
  | cons v t =>
    constructor
    · rw [parse_subtitle_input, if_neg (by simp [pyTruthy])]
    · rfl

theorem bracket_fail (s : Str) (hpre : (['['].isPrefixOf s) = true)
    (hsuf : ([']'].isSuffixOf s) = true) (hfail : jsonLoads s = Option.none) :
    parse_subtitle_input (.str s) = .list [] ∧
    process_screenshots (.str s) = .list [] := by
  obtain ⟨t, rfl⟩ : ∃ t, s = '[' :: t := by
    cases s with
    | nil => exact absurd hpre (by simp [List.isPrefixOf])
    | cons c cs =>
      simp only [List.isPrefixOf, Bool.and_eq_true, beq_iff_eq] at hpre
      exact ⟨cs, by rw [hpre.1]⟩
  have hsafe : safe_json_loads (.str ('[' :: t)) (.list []) = .list [] := by
    rw [safe_json_loads]
    rw [if_neg (by simp)]
    rw [hfail]
    rfl
  constructor
  · rw [parse_subtitle_input, if_neg (by simp [pyTruthy])]
    rw [if_pos (by rw [hpre, hsuf]; rfl)]
    exact hsafe
  · rw [process_screenshots]
    rw [if_pos (by rw [hpre, hsuf]; rfl)]
    exact hsafe

/-- C7: for the list-like fields (screenshot galleries via the
`process_screenshots` closure and per-language subtitle lists via
`parse_subtitle_input`), the three accepted input shapes — a comma-separated
string, a JSON-encoded array string, and an already-parsed list — denoting the
same plain URLs all parse to the same canonical list; and a string with
leading `[` and trailing `]` that fails to parse as JSON yields the empty
list without raising. -/
theorem claim_C7 :
    (∀ us : List Str, goodUrls us = true →
       parse_subtitle_input (.str (joinSep ',' us)) = .list (us.map PyVal.str) ∧
       parse_subtitle_input (.str (jsonArr us)) = .list (us.map PyVal.str) ∧
       parse_subtitle_input (.list (us.map PyVal.str))
         = .list (us.map PyVal.str) ∧
       process_screenshots (.str (joinSep ',' us)) = .list (us.map PyVal.str) ∧
       process_screenshots (.str (jsonArr us)) = .list (us.map PyVal.str) ∧
       process_screenshots (.list (us.map PyVal.str))
         = .list (us.map PyVal.str)) ∧
    (∀ s : Str, (['['].isPrefixOf s) = true → ([']'].isSuffixOf s) = true →
       jsonLoads s = Option.none →
       parse_subtitle_input (.str s) = .list [] ∧
       process_screenshots (.str s) = .list []) := by
  constructor
  · intro us hg
    exact ⟨(comma_shape us hg).1, (json_shape us hg).1, (list_shape _).1,
      (comma_shape us hg).2, (json_shape us hg).2, (list_shape _).2⟩
  · intro s h1 h2 h3
    exact bracket_fail s h1 h2 h3

theorem claim_C7_witness :
    goodUrls [S "http://a/1.png", S "http://b/2.png"] = true ∧
    parse_subtitle_input
        (.str (joinSep ',' [S "http://a/1.png", S "http://b/2.png"]))
      = .list ([S "http://a/1.png", S "http://b/2.png"].map PyVal.str) ∧
    parse_subtitle_input
        (.str (jsonArr [S "http://a/1.png", S "http://b/2.png"]))
      = .list ([S "http://a/1.png", S "http://b/2.png"].map PyVal.str) ∧
    parse_subtitle_input (.str (S "[oops]")) = .list [] := by
  refine ⟨by decide, ?_, ?_, ?_⟩
  · exact (claim_C7.1 _ (by decide)).1
  · exact (claim_C7.1 _ (by decide)).2.1
  · exact (claim_C7.2 (S "[oops]") (by decide) (by decide) (by rfl)).1
